import Mathlib

/-!
Verification development for the ClearWeb scraper + accessibility-simplifier
backend.  The Python sources under `server/` are shallowly embedded as
executable Lean definitions: Python `dict`/`list`/`str` values become the
`PyVal` inductive, fallible code returns `Except`/`Option`, and the network
collaborators (the DNS resolver, the HTTP fetcher and the chat-completion
endpoint) become explicit function parameters.  Theorems at the end of the
file settle the specified behaviours of validation, language heuristics,
JSON recovery, the generation-and-validation loop, fingerprinting, text
linearization, the cache flow of `/simplify`, the SSRF hostname guard and
link extraction.
-/

set_option maxHeartbeats 1000000
set_option maxRecDepth 4000

namespace ClearWeb

/-! ## Python value model

A runtime Python value as manipulated by the server code: `None`, booleans,
integers, floats (kept as their literal text: no float arithmetic is ever
performed on them), strings, lists and string-keyed dicts (insertion-ordered
association lists, as in CPython). -/

inductive PyVal where
  | pynone
  | pybool (b : Bool)
  | pyint (n : Int)
  | pyfloat (lit : String)
  | pystr (s : String)
  | pylist (xs : List PyVal)
  | pydict (entries : List (String × PyVal))

namespace PyVal

/-- Python truthiness (`bool(x)`) for the values the server actually tests. -/
def truthy : PyVal → Bool
  | pynone => false
  | pybool b => b
  | pyint n => n != 0
  | pyfloat _ => true
  | pystr s => !s.isEmpty
  | pylist xs => !xs.isEmpty
  | pydict es => !es.isEmpty

/-- `d.get(k)` on a dict (first binding wins, as keys are unique in CPython). -/
def get : PyVal → String → Option PyVal
  | pydict es, k => es.lookup k
  | _, _ => Option.none

/-- `k in d` membership test on a dict. -/
def hasKey (v : PyVal) (k : String) : Bool :=
  (v.get k).isSome

/-- `d[k] = val` on a dict: overwrite in place, else append (CPython insertion
order). On non-dicts this is the identity; the server only calls it on dicts. -/
def setKey : PyVal → String → PyVal → PyVal
  | pydict es, k, v => pydict (go es k v)
  | x, _, _ => x
where
  go : List (String × PyVal) → String → PyVal → List (String × PyVal)
    | [], k, v => [(k, v)]
    | (k0, v0) :: rest, k, v =>
        if k0 = k then (k0, v) :: rest else (k0, v0) :: go rest k v

/-- `d.setdefault(k, v)` restricted to its effect on the dict. -/
def setdefault (d : PyVal) (k : String) (v : PyVal) : PyVal :=
  if d.hasKey k then d else d.setKey k v

/-- Python `v == s` for a candidate value against a string literal: true
exactly when the value is that string. -/
def isStrEq (v : Option PyVal) (s : String) : Bool :=
  match v with
  | some (pystr t) => t = s
  | _ => false

/-- `isinstance(x, dict)`. -/
def isDict : PyVal → Bool
  | pydict _ => true
  | _ => false

/-- `isinstance(x, list)`. -/
def isList : PyVal → Bool
  | pylist _ => true
  | _ => false

end PyVal

open PyVal

/-! ## `utils/validation.py` -/

/-- `ensure_dict`: return the value if it is a dict, else `{}`. -/
def ensure_dict (x : PyVal) : PyVal :=
  if x.isDict then x else pydict []

/-- The validators return Python `(ok, reason)` pairs. -/
abbrev VResult := Bool × String

/-- `validate_easy_read` (utils/validation.py). -/
def validate_easy_read (obj : PyVal) : VResult :=
  let req := ["mode", "about", "key_points", "sections", "important_links",
              "warnings", "glossary"]
  match req.find? (fun k => !(obj.hasKey k)) with
  | some k => (false, "easy_read missing key: " ++ k)
  | Option.none =>
    if !(isStrEq (obj.get "mode") "easy_read") then
      (false, "easy_read.mode must be 'easy_read'")
    else if !((obj.get "key_points").getD pynone).isList then
      (false, "easy_read.key_points must be a list")
    else if !((obj.get "sections").getD pynone).isList then
      (false, "easy_read.sections must be a list")
    else (true, "ok")

/-- `normalize_checklist` (utils/validation.py): unwrap a nested
`checklist` key, then default every required checklist field. -/
def normalize_checklist (obj : PyVal) : PyVal :=
  let obj := match obj.get "checklist" with
    | some inner => if inner.isDict then inner else obj
    | Option.none => obj
  let obj := obj.setdefault "mode" (pystr "checklist")
  let obj := obj.setdefault "goal" (pystr "")
  let obj := obj.setdefault "requirements" (pylist [])
  let obj := obj.setdefault "documents" (pylist [])
  let obj := obj.setdefault "fees" (pylist [])
  let obj := obj.setdefault "deadlines" (pylist [])
  let obj := obj.setdefault "actions" (pylist [])
  let obj := obj.setdefault "common_mistakes" (pylist [])
  obj

/-- `validate_checklist` (utils/validation.py). -/
def validate_checklist (obj : PyVal) : VResult :=
  let req := ["mode", "goal", "requirements", "documents", "fees",
              "deadlines", "actions", "common_mistakes"]
  match req.find? (fun k => !(obj.hasKey k)) with
  | some k => (false, "checklist missing key: " ++ k)
  | Option.none =>
    if !(isStrEq (obj.get "mode") "checklist") then
      (false, "checklist.mode must be 'checklist'")
    else if !((obj.get "requirements").getD pynone).isList then
      (false, "checklist.requirements must be a list")
    else (true, "ok")

/-- `validate_step_by_step` (utils/validation.py). -/
def validate_step_by_step (obj : PyVal) : VResult :=
  let req := ["mode", "goal", "steps", "finish_check"]
  match req.find? (fun k => !(obj.hasKey k)) with
  | some k => (false, "step_by_step missing key: " ++ k)
  | Option.none =>
    if !(isStrEq (obj.get "mode") "step_by_step") then
      (false, "step_by_step.mode must be 'step_by_step'")
    else if !((obj.get "steps").getD pynone).isList then
      (false, "step_by_step.steps must be a list")
    else
      match obj.get "steps" with
      | some (pylist (s0 :: _)) =>
        if !(s0.isDict) then
          (false, "step_by_step.steps items must be objects")
        else
          match ["step", "title", "what_to_do", "where_to_click"].find?
                  (fun k => !(s0.hasKey k)) with
          | some k => (false, "step_by_step.steps[0] missing " ++ k)
          | Option.none => (true, "ok")
      | _ => (true, "ok")

/-- `validate_by_mode` (utils/validation.py and main.py): normalize by mode,
then validate; returns `(ok, reason, normalized_obj)`. -/
def validate_by_mode (mode : String) (obj : PyVal) : Bool × String × PyVal :=
  let obj := ensure_dict obj
  if mode = "easy_read" then
    let obj := obj.setdefault "mode" (pystr "easy_read")
    let (ok, reason) := validate_easy_read obj
    (ok, reason, obj)
  else if mode = "checklist" then
    let obj := normalize_checklist obj
    let (ok, reason) := validate_checklist obj
    (ok, reason, obj)
  else if mode = "step_by_step" then
    let obj := obj.setdefault "mode" (pystr "step_by_step")
    let (ok, reason) := validate_step_by_step obj
    (ok, reason, obj)
  else (false, "Unknown mode " ++ mode, obj)

/-! ## `utils/language.py` -/

/-- `LANG_NAME` lookup table. -/
def LANG_NAME : List (String × String) :=
  [("en", "English"),
   ("zh", "Simplified Chinese (简体中文)"),
   ("ms", "Malay (Bahasa Melayu)"),
   ("ta", "Tamil (தமிழ்)")]

/-- `MALAY_HINT_WORDS`. -/
def MALAY_HINT_WORDS : List String :=
  ["ini", "untuk", "dan", "yang", "anda", "boleh", "langkah", "dokumen",
   "permohonan", "sila", "perlu", "semak", "senarai", "panduan", "tujuan",
   "maklumat", "lebih", "lanjut"]

/-- `COMMON_EN_WORDS`. -/
def COMMON_EN_WORDS : List String :=
  ["the", "this", "that", "page", "domain", "used", "use", "for", "only",
   "not", "and", "about", "learn", "more", "example", "documentation",
   "operations"]

/-- `language_instruction` (utils/language.py): the language directive added
to every prompt. -/
def language_instruction (lang_code : String) : String :=
  let lang := (LANG_NAME.lookup lang_code).getD "English"
  let base := "All human-readable TEXT VALUES must be in " ++ lang ++ ". " ++
    "DO NOT translate JSON keys. Keep JSON keys exactly as provided. " ++
    "URLs may remain unchanged. Proper nouns may remain unchanged. "
  let base := if lang_code = "ms" then
      base ++ "Avoid English sentences. Use Malay sentence structure. " ++
        "If you accidentally produce English, rewrite fully into Malay."
    else base
  let base := if lang_code = "zh" then
      base ++ "Use Simplified Chinese characters. If you produce English, rewrite into Chinese."
    else base
  let base := if lang_code = "ta" then
      base ++ "Use Tamil script characters. If you produce English, rewrite into Tamil."
    else base
  base

mutual

/-- `flatten_text.walk` accumulated left to right: all string values of a
nested object, in order (numbers and booleans are skipped). -/
def flattenParts : PyVal → List String
  | pynone => []
  | pystr s => [s]
  | pyint _ => []
  | pyfloat _ => []
  | pybool _ => []
  | pylist xs => flattenList xs
  | pydict es => flattenEntries es

/-- `walk` over the elements of a Python list, left to right. -/
def flattenList : List PyVal → List String
  | [] => []
  | x :: xs => flattenParts x ++ flattenList xs

/-- `walk` over the values of a Python dict, in insertion order. -/
def flattenEntries : List (String × PyVal) → List String
  | [] => []
  | e :: es => flattenParts e.2 ++ flattenEntries es

end

/-- `flatten_text` (utils/language.py): `" ".join(parts)`. -/
def flatten_text (obj : PyVal) : String :=
  String.intercalate " " (flattenParts obj)

/-- Whitespace as recognised by Python's `\s` / `str.split()` (the ASCII
whitespace characters; exotic Unicode spaces are not modelled). -/
def pyIsSpace (c : Char) : Bool :=
  c = ' ' || c = '\t' || c = '\n' || c = '\r' || c = '\x0b' || c = '\x0c'

/-- ASCII letter test (`[a-zA-Z]`). -/
def isAsciiLetter (c : Char) : Bool :=
  ('a' ≤ c && c ≤ 'z') || ('A' ≤ c && c ≤ 'Z')

/-- `re.sub(r"[^a-zA-Z\s]", " ", txt)`: every character that is neither an
ASCII letter nor whitespace becomes a space. -/
def keepLettersAndSpace (s : String) : String :=
  String.mk (s.data.map (fun c =>
    if isAsciiLetter c || pyIsSpace c then c else ' '))

/-- ASCII `str.lower()`. -/
def asciiLower (s : String) : String :=
  String.mk (s.data.map Char.toLower)

/-- `str.split()` with no separator: split on whitespace runs, dropping
empty fields. -/
def pySplitWs (s : String) : List String :=
  ((s.data.splitOnP pyIsSpace).map String.mk).filter (fun w => !w.isEmpty)

/-- A CJK Unified Ideograph, the character class of the `zh` regex
`[一-鿿]`. -/
def isCJK (c : Char) : Bool :=
  0x4e00 ≤ c.toNat && c.toNat ≤ 0x9fff

/-- A Tamil-block character, the character class of the `ta` regex
`[஀-௿]`. -/
def isTamil (c : Char) : Bool :=
  0xB80 ≤ c.toNat && c.toNat ≤ 0xBFF

/-- The word list the Malay heuristic scores: flattened text restricted to
ASCII letters, lowercased, split on whitespace. -/
def msWords (obj : PyVal) : List String :=
  pySplitWs (asciiLower (keepLettersAndSpace (flatten_text obj)))

/-- `language_ok` (utils/language.py): heuristic check that a generated
object is in the requested language. -/
def language_ok (lang : String) (obj : PyVal) : Bool :=
  if lang = "en" then true
  else
    let txt := flatten_text obj
    if lang = "zh" then txt.data.any isCJK
    else if lang = "ta" then txt.data.any isTamil
    else if lang = "ms" then
      let low := asciiLower (keepLettersAndSpace txt)
      let words := pySplitWs low
      if words.isEmpty then false
      else
        let malay_hits := words.countP (fun w => MALAY_HINT_WORDS.contains w)
        let en_hits := words.countP (fun w => COMMON_EN_WORDS.contains w)
        malay_hits ≥ 2 || (en_hits ≤ 3 && words.length ≥ 8)
    else true

/-! ## JSON: `json.loads` / `json.dumps`

Model of the parts of CPython's `json` module the server uses.  `loads` is a
strict RFC-8259 parser (leading/trailing whitespace allowed, nothing else);
`dumps` uses the default separators with `ensure_ascii=False`.  Exception
message texts are abstracted; only success/failure and the parsed value are
semantically relevant to the server code. -/

/-- JSON structural whitespace. -/
def jsonWs (c : Char) : Bool :=
  c = ' ' || c = '\t' || c = '\n' || c = '\r'

/-- Skip JSON whitespace. -/
def skipWs (cs : List Char) : List Char :=
  cs.dropWhile jsonWs

/-- Hexadecimal digit value. -/
def hexVal (c : Char) : Option Nat :=
  let n := c.toNat
  if 48 ≤ n && n ≤ 57 then some (n - 48)
  else if 97 ≤ n && n ≤ 102 then some (n - 87)
  else if 65 ≤ n && n ≤ 70 then some (n - 55)
  else Option.none

/-- Code point from a `\uXXXX` escape; lone surrogates (which CPython keeps
in the `str`) are mapped to U+FFFD since Lean `Char` excludes them. -/
def charOfCode (n : Nat) : Char :=
  if n < 0xd800 || (0xe000 ≤ n && n < 0x110000) then Char.ofNat n else '�'

/-- JSON string body after the opening quote: returns the decoded string and
the input remaining after the closing quote.  The fuel (always supplied in
excess of the input length) only forces termination. -/
def parseStrBody : Nat → List Char → List Char → Option (String × List Char)
  | 0, _, _ => Option.none
  | _ + 1, acc, '"' :: rest => some (String.mk acc.reverse, rest)
  | fuel + 1, acc, '\\' :: esc => (match esc with
      | '"' :: rest => parseStrBody fuel ('"' :: acc) rest
      | '\\' :: rest => parseStrBody fuel ('\\' :: acc) rest
      | '/' :: rest => parseStrBody fuel ('/' :: acc) rest
      | 'b' :: rest => parseStrBody fuel ('\x08' :: acc) rest
      | 'f' :: rest => parseStrBody fuel ('\x0c' :: acc) rest
      | 'n' :: rest => parseStrBody fuel ('\n' :: acc) rest
      | 'r' :: rest => parseStrBody fuel ('\r' :: acc) rest
      | 't' :: rest => parseStrBody fuel ('\t' :: acc) rest
      | 'u' :: a :: b :: c :: d :: rest =>
        match hexVal a, hexVal b, hexVal c, hexVal d with
        | some ha, some hb, some hc, some hd =>
          let n := ((ha * 16 + hb) * 16 + hc) * 16 + hd
          if 0xd800 ≤ n && n ≤ 0xdbff then
            -- possible surrogate pair
            match rest with
            | '\\' :: 'u' :: e :: f :: g :: h :: rest2 =>
              (match hexVal e, hexVal f, hexVal g, hexVal h with
               | some he, some hf, some hg, some hh =>
                 let m := ((he * 16 + hf) * 16 + hg) * 16 + hh
                 if 0xdc00 ≤ m && m ≤ 0xdfff then
                   let cp := 0x10000 + (n - 0xd800) * 0x400 + (m - 0xdc00)
                   parseStrBody fuel (charOfCode cp :: acc) rest2
                 else parseStrBody fuel (charOfCode m :: charOfCode n :: acc) rest2
               | _, _, _, _ => Option.none)
            | _ => parseStrBody fuel (charOfCode n :: acc) rest
          else parseStrBody fuel (charOfCode n :: acc) rest
        | _, _, _, _ => Option.none
      | _ => Option.none)
  | fuel + 1, acc, c :: rest =>
      if c.toNat < 0x20 then Option.none  -- strict mode rejects raw controls
      else parseStrBody fuel (c :: acc) rest
  | _, _, [] => Option.none

/-- Leading decimal digits of the input. -/
def spanDigits (cs : List Char) : List Char × List Char :=
  (cs.takeWhile Char.isDigit, cs.dropWhile Char.isDigit)

/-- Natural number denoted by a digit list. -/
def digitsToNat (ds : List Char) : Nat :=
  ds.foldl (fun acc d => acc * 10 + (d.toNat - '0'.toNat)) 0

/-- JSON number starting at the input head: integer literals become Python
ints, fraction/exponent literals become floats carrying their literal text. -/
def parseNum (cs : List Char) : Option (PyVal × List Char) :=
  let (neg, cs1) := match cs with
    | '-' :: rest => (true, rest)
    | _ => (false, cs)
  match cs1 with
  | '0' :: rest =>
      parseNumTail neg ['0'] rest
  | c :: _ =>
      if c.isDigit then
        let (ds, rest) := spanDigits cs1
        parseNumTail neg ds rest
      else Option.none
  | [] => Option.none
where
  parseNumTail (neg : Bool) (intDigits : List Char) (rest : List Char) :
      Option (PyVal × List Char) :=
    let (fracDigits, rest2) := match rest with
      | '.' :: r =>
        let (ds, r2) := spanDigits r
        (some ds, r2)
      | _ => (Option.none, rest)
    match fracDigits with
    | some [] => Option.none
    | _ =>
      let restF := rest2
      let (expPart, rest3) := match restF with
        | 'e' :: r => expTail r
        | 'E' :: r => expTail r
        | _ => (Option.none, restF)
      match expPart with
      | some [] => Option.none
      | _ =>
        if fracDigits.isNone && expPart.isNone then
          let n : Int := Int.ofNat (digitsToNat intDigits)
          some (pyint (if neg then -n else n), rest)
        else
          let signStr := if neg then "-" else ""
          let fracStr := match fracDigits with
            | some ds => "." ++ String.mk ds
            | Option.none => ""
          let expStr := match expPart, restF with
            | some ds, 'e' :: r =>
              "e" ++ String.mk (r.take (r.length - (skipExpSign r).length)) ++ String.mk ds
            | some ds, 'E' :: r =>
              "E" ++ String.mk (r.take (r.length - (skipExpSign r).length)) ++ String.mk ds
            | _, _ => ""
          some (pyfloat (signStr ++ String.mk intDigits ++ fracStr ++ expStr), rest3)
  expTail (r : List Char) : Option (List Char) × List Char :=
    let r1 := skipExpSign r
    let (ds, r2) := spanDigits r1
    (some ds, r2)
  skipExpSign : List Char → List Char
    | '+' :: r => r
    | '-' :: r => r
    | r => r

mutual

/-- JSON value at the input head (`fuel` bounds the nesting depth). -/
def parseVal : Nat → List Char → Option (PyVal × List Char)
  | 0, _ => Option.none
  | _ + 1, [] => Option.none
  | fuel + 1, c :: rest =>
    if c = '"' then
      match parseStrBody (rest.length + 1) [] rest with
      | some (s, r) => some (pystr s, r)
      | Option.none => Option.none
    else if c = '{' then
      let r := skipWs rest
      match r with
      | '}' :: r2 => some (pydict [], r2)
      | _ => parseMembers fuel r (pydict [])
    else if c = '[' then
      let r := skipWs rest
      match r with
      | ']' :: r2 => some (pylist [], r2)
      | _ => parseElems fuel r []
    else if c = 't' then
      match rest with
      | 'r' :: 'u' :: 'e' :: r => some (pybool true, r)
      | _ => Option.none
    else if c = 'f' then
      match rest with
      | 'a' :: 'l' :: 's' :: 'e' :: r => some (pybool false, r)
      | _ => Option.none
    else if c = 'n' then
      match rest with
      | 'u' :: 'l' :: 'l' :: r => some (pynone, r)
      | _ => Option.none
    else parseNum (c :: rest)

/-- Members of a JSON object, accumulating into a dict (a repeated key
overwrites its value in place, as in CPython). -/
def parseMembers : Nat → List Char → PyVal → Option (PyVal × List Char)
  | 0, _, _ => Option.none
  | fuel + 1, cs, acc =>
    match cs with
    | '"' :: rest =>
      match parseStrBody (rest.length + 1) [] rest with
      | some (k, r) =>
        (match skipWs r with
         | ':' :: r2 =>
           match parseVal fuel (skipWs r2) with
           | some (v, r3) =>
             let acc := acc.setKey k v
             (match skipWs r3 with
              | ',' :: r4 =>
                (match skipWs r4 with
                 | '"' :: _ => parseMembers fuel (skipWs r4) acc
                 | _ => Option.none)
              | '}' :: r4 => some (acc, r4)
              | _ => Option.none)
           | Option.none => Option.none
         | _ => Option.none)
      | Option.none => Option.none
    | _ => Option.none

/-- Elements of a JSON array. -/
def parseElems : Nat → List Char → List PyVal → Option (PyVal × List Char)
  | 0, _, _ => Option.none
  | fuel + 1, cs, acc =>
    match parseVal fuel cs with
    | some (v, r) =>
      (match skipWs r with
       | ',' :: r2 => parseElems fuel (skipWs r2) (acc ++ [v])
       | ']' :: r2 => some (pylist (acc ++ [v]), r2)
       | _ => Option.none)
    | Option.none => Option.none

end

/-- `json.loads`: parse a complete JSON document, allowing surrounding
whitespace only. -/
def json_loads (s : String) : Option PyVal :=
  match parseVal (s.length + 1) (skipWs s.data) with
  | some (v, rest) => if skipWs rest = [] then some v else Option.none
  | Option.none => Option.none

/-- String escaping of `json.dumps(..., ensure_ascii=False)`. -/
def dumpsStr (s : String) : String :=
  "\"" ++ String.join (s.data.map escape) ++ "\""
where
  escape (c : Char) : String :=
    if c = '"' then "\\\""
    else if c = '\\' then "\\\\"
    else if c = '\x08' then "\\b"
    else if c = '\t' then "\\t"
    else if c = '\n' then "\\n"
    else if c = '\x0c' then "\\f"
    else if c = '\r' then "\\r"
    else if c.toNat < 0x20 then
      "\\u00" ++ String.mk [hexDigit (c.toNat / 16), hexDigit (c.toNat % 16)]
    else String.mk [c]
  hexDigit (n : Nat) : Char :=
    if n < 10 then Char.ofNat ('0'.toNat + n) else Char.ofNat ('a'.toNat + n - 10)

mutual

/-- `json.dumps(v, ensure_ascii=False)` with the default separators. -/
def json_dumps : PyVal → String
  | pynone => "null"
  | pybool true => "true"
  | pybool false => "false"
  | pyint n => toString n
  | pyfloat lit => lit
  | pystr s => dumpsStr s
  | pylist xs => "[" ++ dumpsElems xs ++ "]"
  | pydict es => "\x7b" ++ dumpsMembers es ++ "\x7d"

/-- Comma-joined array elements. -/
def dumpsElems : List PyVal → String
  | [] => ""
  | [x] => json_dumps x
  | x :: xs => json_dumps x ++ ", " ++ dumpsElems xs

/-- Comma-joined object members. -/
def dumpsMembers : List (String × PyVal) → String
  | [] => ""
  | [(k, v)] => dumpsStr k ++ ": " ++ json_dumps v
  | (k, v) :: es => dumpsStr k ++ ": " ++ json_dumps v ++ ", " ++ dumpsMembers es

end

/-! ## `utils/openai_client.py`: `parse_json_loose` -/

/-- Python `str.strip()` (ASCII whitespace; exotic Unicode spaces are not
modelled). -/
def pyStrip (s : String) : String :=
  String.mk ((s.data.dropWhile pyIsSpace).reverse.dropWhile pyIsSpace |>.reverse)

/-- The span matched by `re.search(r"\{.*\}", text, re.DOTALL)`: since `.*`
is greedy and `.` matches newlines, the match runs from the first `{` of the
text to its last `}` (no match when no such pair exists in order). -/
def firstToLastBrace (s : String) : Option String :=
  let cs := s.data
  match cs.indexOf? '{' with
  | some i =>
    match cs.reverse.indexOf? '}' with
    | some jr =>
      let j := cs.length - 1 - jr
      if i ≤ j then some (String.mk ((cs.drop i).take (j - i + 1)))
      else Option.none
    | Option.none => Option.none
  | Option.none => Option.none

/-- `parse_json_loose` (utils/openai_client.py): strict parse of the
stripped text, else parse the greedy first-`{`-to-last-`}` span; exception
message texts are abstracted except for the explicit `ValueError`. -/
def parse_json_loose (text : String) : Except String PyVal :=
  let text := pyStrip text
  match json_loads text with
  | some v => Except.ok v
  | Option.none =>
    match firstToLastBrace text with
    | Option.none => Except.error "Model did not return JSON."
    | some span =>
      match json_loads span with
      | some v => Except.ok v
      | Option.none => Except.error "Expecting value"

/-! ## `main.py`: prompt builder and generation-and-validation loop

`call_openai_chat` is an external collaborator; it is modelled as an oracle
`Nat → String × String` giving the `(content, model)` answer of the n-th
chat-completion call of the request, and `get_openai_model()` as an explicit
`env_model` argument. -/

/-- A chat message `{"role": ..., "content": ...}`. -/
abbrev Msg := String × String

/-- The per-mode `schema` dict of `prompt_for_mode` (main.py). -/
def mode_schema (mode : String) : Option PyVal :=
  if mode = "easy_read" then some (pydict
    [("mode", pystr "easy_read"),
     ("about", pystr "string"),
     ("key_points", pylist [pystr "string"]),
     ("sections", pylist [pydict
        [("heading", pystr "string"), ("bullets", pylist [pystr "string"])]]),
     ("important_links", pylist [pydict
        [("label", pystr "string"), ("url", pystr "string")]]),
     ("warnings", pylist [pystr "string"]),
     ("glossary", pylist [pydict
        [("term", pystr "string"), ("simple", pystr "string")]])])
  else if mode = "checklist" then some (pydict
    [("mode", pystr "checklist"),
     ("goal", pystr "string"),
     ("requirements", pylist [pydict
        [("item", pystr "string"), ("details", pystr "string"),
         ("required", pybool true)]]),
     ("documents", pylist [pydict
        [("item", pystr "string"), ("details", pystr "string")]]),
     ("fees", pylist [pydict
        [("item", pystr "string"), ("amount", pystr "string")]]),
     ("deadlines", pylist [pydict
        [("item", pystr "string"), ("date", pystr "string")]]),
     ("actions", pylist [pydict
        [("item", pystr "string"), ("url", pystr "string")]]),
     ("common_mistakes", pylist [pystr "string"])])
  else if mode = "step_by_step" then some (pydict
    [("mode", pystr "step_by_step"),
     ("goal", pystr "string"),
     ("steps", pylist [pydict
        [("step", pyint 1), ("title", pystr "string"),
         ("what_to_do", pystr "string"), ("where_to_click", pystr "string"),
         ("url", pynone), ("tips", pylist [pystr "string"])]]),
     ("finish_check", pylist [pystr "string"])])
  else Option.none

/-- `prompt_for_mode` (main.py); the unknown-mode `ValueError` becomes an
`Except.error`. -/
def prompt_for_mode (mode : String) (title : Option String)
    (source_text : String) (links : PyVal) (language : String) :
    Except String (List Msg) :=
  let system := "You are an accessibility assistant. " ++
    "Rewrite complex webpages into formats that reduce cognitive load. " ++
    "Return ONLY valid JSON. No markdown. No extra text. " ++
    "DO NOT include the schema, the task description, or the context in the output. " ++
    "Output must be a JSON object that MATCHES the schema instance. " ++
    "Use short sentences and plain language. Prefer bullets and steps. " ++
    "If jargon appears, define it in a glossary. " ++
    language_instruction language
  let ctx := pydict
    [("title", pystr ((title.getD "" : String))),
     ("source_text", pystr source_text),
     ("links", links)]
  match mode_schema mode with
  | Option.none => Except.error ("Unknown mode: " ++ mode)
  | some schema =>
    let user := "CONTEXT (use this to write the output):\n" ++
      json_dumps ctx ++ "\n\n" ++
      "OUTPUT SCHEMA (produce an instance of this; do not output the schema itself):\n" ++
      json_dumps schema ++ "\n\n" ++
      "REMINDER:\n" ++
      "- Return ONLY the final JSON object.\n" ++
      "- Do NOT include any extra keys like task/output_schema/context.\n" ++
      "- Keep bullets/steps short.\n"
    Except.ok [("system", system), ("user", user)]

/-- What one iteration of the generation loop computes from the raw model
text: the parsed object (`{}` with a recorded reason when both parse stages
fail), the normalization+schema verdict and the language verdict. -/
structure AttemptEval where
  obj : PyVal
  parseReason : Option String
  okSchema : Bool
  reasonSchema : String
  objNorm : PyVal
  okLang : Bool
  reasonLang : String

/-- The body of one loop iteration of `generate_mode_output_validated`
(main.py): `parse_json_loose` with the `except` branch, then
`validate_by_mode(mode, ensure_dict(obj))`, then `language_ok`. -/
def evalAttempt (mode language raw : String) : AttemptEval :=
  let (obj, parseReason) := match parse_json_loose raw with
    | Except.ok v => (v, (Option.none : Option String))
    | Except.error e => (pydict [], some ("Invalid JSON: " ++ e))
  let (okSchema, reasonSchema, objNorm) := validate_by_mode mode (ensure_dict obj)
  let okLang := language_ok language objNorm
  let reasonLang := if okLang then "ok" else "Wrong language for '" ++ language ++ "'"
  ⟨obj, parseReason, okSchema, reasonSchema, objNorm, okLang, reasonLang⟩

/-- The corrective user message appended before a retry (main.py). -/
def corrective_message (last_reason language : String) : String :=
  "Your previous output was INVALID.\n" ++
  "Problems: " ++ last_reason ++ "\n\n" ++
  "Fix it now and return ONLY the corrected JSON object.\n" ++
  "Do NOT include the schema, task, or context.\n" ++
  language_instruction language

/-- Result of the generation loop, instrumented with the number of
chat-completion calls made and, per call, the message list sent and the raw
text received. -/
structure GenResult where
  output : PyVal
  model : String
  calls : Nat
  trace : List (List Msg × String)

/-- The `for attempt in range(max_retries + 1)` loop of
`generate_mode_output_validated` (main.py), by recursion on the attempts
remaining; on exhaustion it builds the
`{"mode": mode, "raw": last_raw, "error": last_reason}` fallback. -/
def genLoop (mode language : String) (oracle : Nat → String × String)
    (env_model : String) :
    Nat → Nat → List Msg → String → String → List (List Msg × String) →
    GenResult
  | _, 0, _, last_raw, last_reason, trace =>
    { output := pydict [("mode", pystr mode), ("raw", pystr last_raw),
                        ("error", pystr last_reason)]
      model := env_model
      calls := trace.length
      trace := trace }
  | attemptIdx, left + 1, messages, _, _, trace =>
    let (raw, model_used) := oracle attemptIdx
    let ev := evalAttempt mode language raw
    let trace := trace ++ [(messages, raw)]
    if ev.okSchema && ev.okLang then
      { output := ev.objNorm, model := model_used, calls := trace.length,
        trace := trace }
    else
      let last_reason := ev.reasonSchema ++ "; " ++ ev.reasonLang
      let messages := if left > 0 then
          messages ++ [("assistant", raw),
                       ("user", corrective_message last_reason language)]
        else messages
      genLoop mode language oracle env_model (attemptIdx + 1) left messages
        raw last_reason trace

/-- `generate_mode_output_validated` (main.py). -/
def generate_mode_output_validated (mode : String) (title : Option String)
    (source_text : String) (links : PyVal) (language : String)
    (max_retries : Nat) (oracle : Nat → String × String)
    (env_model : String) : Except String GenResult :=
  match prompt_for_mode mode title source_text links language with
  | Except.error e => Except.error e
  | Except.ok messages =>
    Except.ok (genLoop mode language oracle env_model 0 (max_retries + 1)
      messages "" "" [])

/-- Whether one loop iteration of `generate_mode_output_validated` rejects
the raw model text (parse, schema or language failure). -/
def attemptFails (mode language raw : String) : Bool :=
  !((evalAttempt mode language raw).okSchema &&
    (evalAttempt mode language raw).okLang)

/-- The `last_reason` string an iteration records when it rejects. -/
def attemptReason (mode language raw : String) : String :=
  (evalAttempt mode language raw).reasonSchema ++ "; " ++
    (evalAttempt mode language raw).reasonLang

/-! ## `hashlib.sha256(... .encode("utf-8")).hexdigest()`

Executable model of the SHA-256 primitive used by `firebase_store.sha256_hex`
and `database/interface.py`, per FIPS 180-4, over the UTF-8 encoding of the
input string.  Machine words are `Nat` reduced mod `2^32`. -/

/-- UTF-8 encoding of one scalar value. -/
def utf8Char (c : Char) : List Nat :=
  let n := c.toNat
  if n < 0x80 then [n]
  else if n < 0x800 then
    [0xC0 + n / 64, 0x80 + n % 64]
  else if n < 0x10000 then
    [0xE0 + n / 4096, 0x80 + n / 64 % 64, 0x80 + n % 64]
  else
    [0xF0 + n / 262144, 0x80 + n / 4096 % 64, 0x80 + n / 64 % 64, 0x80 + n % 64]

/-- `str.encode("utf-8")` as a byte list. -/
def utf8Encode (s : String) : List Nat :=
  (s.data.map utf8Char).flatten

/-- 32-bit word arithmetic. -/
def w32 (n : Nat) : Nat := n % 4294967296

/-- Addition mod `2^32`. -/
def add32 (a b : Nat) : Nat := w32 (a + b)

/-- Right rotation of a 32-bit word. -/
def rotr32 (k x : Nat) : Nat :=
  w32 (x / 2 ^ k + x * 2 ^ (32 - k))

/-- The 64 SHA-256 round constants. -/
def sha256K : List Nat :=
  [1116352408, 1899447441, 3049323471, 3921009573,
   961987163, 1508970993, 2453635748, 2870763221,
   3624381080, 310598401, 607225278, 1426881987,
   1925078388, 2162078206, 2614888103, 3248222580,
   3835390401, 4022224774, 264347078, 604807628,
   770255983, 1249150122, 1555081692, 1996064986,
   2554220882, 2821834349, 2952996808, 3210313671,
   3336571891, 3584528711, 113926993, 338241895,
   666307205, 773529912, 1294757372, 1396182291,
   1695183700, 1986661051, 2177026350, 2456956037,
   2730485921, 2820302411, 3259730800, 3345764771,
   3516065817, 3600352804, 4094571909, 275423344,
   430227734, 506948616, 659060556, 883997877,
   958139571, 1322822218, 1537002063, 1747873779,
   1955562222, 2024104815, 2227730452, 2361852424,
   2428436474, 2756734187, 3204031479, 3329325298]

/-- SHA-256 padding: `0x80`, zeros to 56 mod 64, then the bit length as
eight big-endian bytes. -/
def sha256Pad (msg : List Nat) : List Nat :=
  let L := msg.length
  let zeros := (55 + 64 - L % 64) % 64
  let lenBytes := (List.range 8).map (fun i => L * 8 / 2 ^ (8 * (7 - i)) % 256)
  msg ++ [0x80] ++ List.replicate zeros 0 ++ lenBytes

/-- Big-endian 32-bit words of a 64-byte block. -/
def blockWords (block : List Nat) : List Nat :=
  (List.range 16).map (fun i =>
    ((block.getD (4 * i) 0 * 256 + block.getD (4 * i + 1) 0) * 256 +
      block.getD (4 * i + 2) 0) * 256 + block.getD (4 * i + 3) 0)

/-- Message-schedule extension from 16 to 64 words. -/
def sha256Extend : Nat → List Nat → List Nat
  | 0, ws => ws
  | n + 1, ws =>
    let t := ws.length
    let s0w := ws.getD (t - 15) 0
    let s1w := ws.getD (t - 2) 0
    let s0 := Nat.xor (rotr32 7 s0w) (Nat.xor (rotr32 18 s0w) (s0w / 2 ^ 3))
    let s1 := Nat.xor (rotr32 17 s1w) (Nat.xor (rotr32 19 s1w) (s1w / 2 ^ 10))
    sha256Extend n (ws ++ [w32 (ws.getD (t - 16) 0 + s0 + ws.getD (t - 7) 0 + s1)])

/-- The eight working variables. -/
structure Sha256State where
  a : Nat
  b : Nat
  c : Nat
  d : Nat
  e : Nat
  f : Nat
  g : Nat
  h : Nat

/-- One compression round. -/
def sha256Round (st : Sha256State) (kw : Nat × Nat) : Sha256State :=
  let S1 := Nat.xor (rotr32 6 st.e) (Nat.xor (rotr32 11 st.e) (rotr32 25 st.e))
  let ch := Nat.xor (Nat.land st.e st.f) (Nat.land (Nat.xor st.e 0xffffffff) st.g)
  let temp1 := w32 (st.h + S1 + ch + kw.1 + kw.2)
  let S0 := Nat.xor (rotr32 2 st.a) (Nat.xor (rotr32 13 st.a) (rotr32 22 st.a))
  let maj := Nat.xor (Nat.land st.a st.b)
    (Nat.xor (Nat.land st.a st.c) (Nat.land st.b st.c))
  let temp2 := w32 (S0 + maj)
  ⟨w32 (temp1 + temp2), st.a, st.b, st.c, w32 (st.d + temp1), st.e, st.f, st.g⟩

/-- Compress one 64-byte block into the running hash value. -/
def sha256Block (hv : List Nat) (block : List Nat) : List Nat :=
  let ws := sha256Extend 48 (blockWords block)
  let st0 : Sha256State :=
    ⟨hv.getD 0 0, hv.getD 1 0, hv.getD 2 0, hv.getD 3 0,
     hv.getD 4 0, hv.getD 5 0, hv.getD 6 0, hv.getD 7 0⟩
  let st := (sha256K.zip ws).foldl (fun st kw => sha256Round st kw) st0
  [add32 (hv.getD 0 0) st.a, add32 (hv.getD 1 0) st.b,
   add32 (hv.getD 2 0) st.c, add32 (hv.getD 3 0) st.d,
   add32 (hv.getD 4 0) st.e, add32 (hv.getD 5 0) st.f,
   add32 (hv.getD 6 0) st.g, add32 (hv.getD 7 0) st.h]

/-- Split into 64-byte blocks (the fuel, always supplied as the input
length, only forces termination: one block consumes at least one byte). -/
def chunks64Go : Nat → List Nat → List (List Nat)
  | 0, _ => []
  | _ + 1, [] => []
  | fuel + 1, b :: bs => ((b :: bs).take 64) :: chunks64Go fuel ((b :: bs).drop 64)

/-- Split into 64-byte blocks. -/
def chunks64 (bs : List Nat) : List (List Nat) :=
  chunks64Go bs.length bs

/-- SHA-256 of a byte list: the eight final hash words. -/
def sha256Words (msg : List Nat) : List Nat :=
  (chunks64 (sha256Pad msg)).foldl sha256Block
    [1779033703, 3144134277, 1013904242, 2773480762,
     1359893119, 2600822924, 528734635, 1541459225]

/-- Lowercase hex digit. -/
def hexChar (n : Nat) : Char :=
  if n < 10 then Char.ofNat ('0'.toNat + n) else Char.ofNat ('a'.toNat + n - 10)

/-- Eight lowercase hex digits of a 32-bit word, big-endian. -/
def wordHex (x : Nat) : List Char :=
  (List.range 8).map (fun i => hexChar (x / 2 ^ (4 * (7 - i)) % 16))

/-- `sha256_hex` (firebase_store.py):
`hashlib.sha256(s.encode("utf-8")).hexdigest()`. -/
def sha256_hex (s : String) : String :=
  String.mk ((sha256Words (utf8Encode s)).map wordHex).flatten

/-! ## Deterministic IDs (`database/interface.py` and `firebase_store.py`) -/

/-- `page_id_for_url`. -/
def page_id_for_url (url : String) : String :=
  sha256_hex url

/-- The f-string key `f"{url}|{mode}|{language}|{source_text_hash}"`. -/
def simplification_key (url mode language source_text_hash : String) : String :=
  url ++ "|" ++ mode ++ "|" ++ language ++ "|" ++ source_text_hash

/-- `simplification_id_for` (database/interface.py and firebase_store.py). -/
def simplification_id_for (url mode language source_text_hash : String) : String :=
  sha256_hex (simplification_key url mode language source_text_hash)

/-! ## `models.py` content types and `services/scraping.py` -/

/-- `ContentBlock` (models/models.py), as produced by `model_dump()`. -/
structure ContentBlock where
  type : String
  level : Option Int := Option.none
  depth : Option Int := Option.none
  text : Option String := Option.none
  items : Option (List String) := Option.none
  headers : Option (List String) := Option.none
  rows : Option (List (List String)) := Option.none

/-- `LinkItem` (models/models.py). -/
structure LinkItem where
  href : String
  text : String
  is_internal : Bool

/-- `ImageItem` (models/models.py). -/
structure ImageItem where
  src : String
  alt : String

/-- Python string slice `s[:n]`. -/
def pyTake (s : String) (n : Nat) : String :=
  String.mk (s.data.take n)

/-- `x or d` on an optional int where `0` is falsy (`b.get("level") or 2`). -/
def levelOr (v : Option Int) (d : Int) : Int :=
  match v with
  | some n => if n = 0 then d else n
  | Option.none => d

/-- The lines contributed by one block in `blocks_to_text`
(services/scraping.py and main.py). -/
def renderBlock (b : ContentBlock) : List String :=
  if b.type = "heading" then
    let lvl := levelOr b.level 2
    let text := pyStrip (b.text.getD "")
    if text.isEmpty then []
    else [String.mk (List.replicate (min 6 (max 1 lvl)).toNat '#') ++ " " ++ text]
  else if b.type = "paragraph" then
    let text := pyStrip (b.text.getD "")
    if text.isEmpty then [] else [text]
  else if b.type = "list" then
    let items := b.items.getD []
    (items.take 12).filterMap (fun it =>
      let it := pyStrip it
      if it.isEmpty then Option.none else some ("- " ++ it))
  else if b.type = "table" then
    let headers := b.headers.getD []
    if headers.isEmpty then []
    else ["Table: " ++ String.intercalate " | " (headers.take 8)]
  else if b.type = "quote" then
    let text := pyStrip (b.text.getD "")
    if text.isEmpty then [] else ["> " ++ text]
  else []

/-- The block loop of `blocks_to_text`: append each block's lines, stopping
once the accumulated character count exceeds the budget. -/
def blocksToTextGo (max_chars : Nat) : List ContentBlock → List String → List String
  | [], out => out
  | b :: bs, out =>
    let out := out ++ renderBlock b
    if (out.map String.length).sum > max_chars then out
    else blocksToTextGo max_chars bs out

/-- `blocks_to_text` (services/scraping.py and main.py):
`"\n".join(out)[:max_chars]`. -/
def blocks_to_text (blocks : List ContentBlock) (max_chars : Nat := 24000) : String :=
  pyTake (String.intercalate "\n" (blocksToTextGo max_chars blocks [])) max_chars

/-- Python `repr` of a string (quote-selection and non-ASCII escaping
subtleties of CPython's repr are abstracted to the plain single-quoted
form). -/
def pyReprStr (s : String) : String :=
  "'" ++ String.join (s.data.map (fun c =>
    if c = '\\' then "\\\\"
    else if c = '\'' then "\\'"
    else if c = '\n' then "\\n"
    else if c = '\r' then "\\r"
    else if c = '\t' then "\\t"
    else String.mk [c])) ++ "'"

/-- Python `repr` of `Optional[int]`. -/
def pyReprOptInt : Option Int → String
  | Option.none => "None"
  | some n => toString n

/-- Python `repr` of `Optional[str]`. -/
def pyReprOptStr : Option String → String
  | Option.none => "None"
  | some s => pyReprStr s

/-- Python `repr` of `Optional[List[str]]`. -/
def pyReprOptStrList : Option (List String) → String
  | Option.none => "None"
  | some xs => "[" ++ String.intercalate ", " (xs.map pyReprStr) ++ "]"

/-- Python `repr` of `Optional[List[List[str]]]`. -/
def pyReprOptRows : Option (List (List String)) → String
  | Option.none => "None"
  | some xs => "[" ++ String.intercalate ", "
      (xs.map (fun r => "[" ++ String.intercalate ", " (r.map pyReprStr) ++ "]")) ++ "]"

/-- `str(item)` for a dumped `ContentBlock` dict, with the fields in
declaration order. -/
def pyReprBlock (b : ContentBlock) : String :=
  "\x7b'type': " ++ pyReprStr b.type ++
  ", 'level': " ++ pyReprOptInt b.level ++
  ", 'depth': " ++ pyReprOptInt b.depth ++
  ", 'text': " ++ pyReprOptStr b.text ++
  ", 'items': " ++ pyReprOptStrList b.items ++
  ", 'headers': " ++ pyReprOptStrList b.headers ++
  ", 'rows': " ++ pyReprOptRows b.rows ++ "\x7d"

/-- The accumulation loop of `_safe_trim_blocks`. -/
def safeTrimGo (max_total_chars : Nat) :
    List ContentBlock → Nat → List ContentBlock → List ContentBlock
  | [], _, acc => acc
  | b :: bs, total, acc =>
    let s := pyReprBlock b
    if total + s.length > max_total_chars then acc
    else safeTrimGo max_total_chars bs (total + s.length) (acc ++ [b])

/-- `_safe_trim_blocks` (services/scraping.py and main.py). -/
def safe_trim_blocks (blocks : List ContentBlock) (max_blocks : Nat := 200)
    (max_total_chars : Nat := 80000) : List ContentBlock :=
  safeTrimGo max_total_chars (blocks.take max_blocks) 0 []

/-- The page record assembled and saved by `scrape_url`. -/
structure PageBundle where
  page_id : String
  url : String
  blocks : List ContentBlock
  links : List LinkItem
  images : List ImageItem
  source_text : String
  source_text_hash : String

/-- The pure tail of `scrape_url` (services/scraping.py): from the extracted
blocks, links and images (the fetch/parse/extract stages are the upstream
collaborators) to the page record that is saved and returned. -/
def scrape_core (url : String) (blocks : List ContentBlock)
    (links : List LinkItem) (images : List ImageItem) : PageBundle :=
  let blocks_data := safe_trim_blocks blocks
  let links_data := links.take 40
  let images_data := images.take 20
  let source_text := blocks_to_text blocks_data
  let source_text_hash := sha256_hex source_text
  { page_id := page_id_for_url url
    url := url
    blocks := blocks_data
    links := links_data
    images := images_data
    source_text := source_text
    source_text_hash := source_text_hash }

/-! ## `firebase_store.py`: the simplifications collection

The document store is modelled as the `MockFirestore` of the source: an
insertion-ordered map from document id to document, with merge-on-write.
`server_timestamp()` is an external input and is passed in as `now`. -/

/-- One Firestore collection: id-keyed documents. -/
abbrev Store := List (String × PyVal)

/-- `dict.update`: overwrite existing keys in place, append new ones. -/
def dictUpdate (base doc : PyVal) : PyVal :=
  match doc with
  | pydict es => es.foldl (fun b kv => b.setKey kv.1 kv.2) base
  | _ => doc

/-- `document(sid).set(doc, merge=True)` against the mock store: merge into
an existing dict document, else write the document. -/
def storeSet : Store → String → PyVal → Store
  | [], sid, doc => [(sid, doc)]
  | (k, v) :: rest, sid, doc =>
    if k = sid then
      (k, if v.isDict then dictUpdate v doc else doc) :: rest
    else (k, v) :: storeSet rest sid doc

/-- `Optional[str]` to a stored value. -/
def optStr : Option String → PyVal
  | Option.none => pynone
  | some s => pystr s

/-- `d.get(k, default)` when the caller expects a string. -/
def getStrD (v : PyVal) (k d : String) : String :=
  match v.get k with
  | some (pystr s) => s
  | _ => d

/-- `get_simplification` (firebase_store.py): deterministic id lookup, the
returned document annotated with `_id`. -/
def get_simplification (url mode language source_text_hash : String)
    (store : Store) : Option PyVal :=
  let sid := simplification_id_for url mode language source_text_hash
  match store.lookup sid with
  | Option.none => Option.none
  | some doc =>
    let data := if doc.truthy then doc else pydict []
    some (data.setKey "_id" (pystr sid))

/-- `save_simplification` (firebase_store.py): merge-write the document
under the deterministic id; returns the id and the updated store. -/
def save_simplification (url page_id source_text_hash mode language : String)
    (output : PyVal) (model : String) (session_id : Option String)
    (now : PyVal) (store : Store) : String × Store :=
  let sid := simplification_id_for url mode language source_text_hash
  let doc := pydict
    [("url", pystr url),
     ("page_id", pystr page_id),
     ("source_text_hash", pystr source_text_hash),
     ("mode", pystr mode),
     ("language", pystr language),
     ("session_id", optStr session_id),
     ("llm", pydict [("provider", pystr "openai"), ("model", pystr model)]),
     ("output", output),
     ("status", pystr "success"),
     ("error", pynone),
     ("updated_at", now)]
  (sid, storeSet store sid doc)

/-! ## `main.py`: `pick_important_links` and the `/simplify` route -/

/-- The accumulation loop of `pick_important_links`. -/
def pickLinksGo (max_links : Nat) : List LinkItem → List PyVal → List PyVal
  | [], cleaned => cleaned
  | l :: ls, cleaned =>
    if cleaned.length ≥ max_links then cleaned
    else
      let href := pyStrip l.href
      let text := pyStrip l.text
      if href.isEmpty then pickLinksGo max_links ls cleaned
      else if href.startsWith "mailto:" || href.startsWith "javascript:" then
        pickLinksGo max_links ls cleaned
      else
        let label := if !text.isEmpty then text else href
        let cleaned := cleaned ++
          [pydict [("label", pystr (pyTake label 80)), ("url", pystr href)]]
        pickLinksGo max_links ls cleaned

/-- `pick_important_links` (main.py and services/simplification.py). -/
def pick_important_links (links : List LinkItem) (max_links : Nat := 20) : PyVal :=
  pylist (pickLinksGo max_links links [])

/-- Per-request accumulator of the `/simplify` mode loop, instrumented with
the number of generation invocations (`gens`) and of chat-completion calls
(`llmCalls`) performed so far. -/
structure SimplifyAcc where
  outputs : PyVal
  simpl_ids : List (String × String)
  model_used_any : String
  store : Store
  gens : Nat
  llmCalls : Nat

/-- One iteration of the `for mode in wanted_modes` loop of `simplify`
(main.py): cache lookup unless `force_regen`, else validated generation
with `max_retries=1` followed by a cache write. -/
def simplify_mode_step (page : PageBundle) (title : Option String)
    (important_links : PyVal) (lang : String) (session_id : Option String)
    (force_regen : Bool) (oracle : Nat → String × String)
    (env_model : String) (now : PyVal) (acc : SimplifyAcc) (mode : String) :
    Except String SimplifyAcc :=
  let cached? :=
    if force_regen then Option.none
    else
      match get_simplification page.url mode lang page.source_text_hash acc.store with
      | some cached =>
        if cached.truthy && ((cached.get "output").getD pynone).truthy then
          some cached
        else Option.none
      | Option.none => Option.none
  match cached? with
  | some cached =>
    Except.ok
      { acc with
        outputs := acc.outputs.setKey mode ((cached.get "output").getD pynone)
        simpl_ids := acc.simpl_ids ++ [(mode, getStrD cached "_id" "")]
        model_used_any :=
          getStrD (if ((cached.get "llm").getD pynone).truthy then
                     (cached.get "llm").getD pynone
                   else pydict []) "model" acc.model_used_any }
  | Option.none =>
    match generate_mode_output_validated mode title page.source_text
        important_links lang 1 (fun k => oracle (acc.llmCalls + k)) env_model with
    | Except.error e => Except.error e
    | Except.ok res =>
      let (sid, store) := save_simplification page.url page.page_id
        page.source_text_hash mode lang res.output res.model session_id now
        acc.store
      Except.ok
        { outputs := acc.outputs.setKey mode res.output
          simpl_ids := acc.simpl_ids ++ [(mode, sid)]
          model_used_any := res.model
          store := store
          gens := acc.gens + 1
          llmCalls := acc.llmCalls + res.calls }

/-- `setdefault` on the id association list. -/
def idsSetdefault (ids : List (String × String)) (m d : String) :
    List (String × String) :=
  if (ids.lookup m).isSome then ids else ids ++ [(m, d)]

/-- The `/simplify` response together with the resulting store state and the
instrumentation counters. -/
structure SimplifyOutcome where
  url : String
  page_id : String
  source_text_hash : String
  language : String
  model : String
  outputs : PyVal
  simplification_ids : List (String × String)
  store : Store
  gens : Nat
  llmCalls : Nat

/-- The `/simplify` route body after scraping (main.py `simplify`): mode
fan-out, per-mode cache-or-generate, and the UI-stability `setdefault`
pass.  The scraped page is an input (the claim scenarios hold the page
content fixed); the chat-completion oracle and the clock are explicit. -/
def simplify_route (page : PageBundle) (title : Option String)
    (req_mode lang : String) (session_id : Option String)
    (force_regen : Bool) (store : Store) (oracle : Nat → String × String)
    (env_model : String) (now : PyVal) : Except String SimplifyOutcome :=
  let important_links := pick_important_links page.links
  let wanted_modes :=
    if req_mode ≠ "all" then [req_mode]
    else ["easy_read", "checklist", "step_by_step"]
  let acc0 : SimplifyAcc :=
    { outputs := pydict [], simpl_ids := [], model_used_any := env_model,
      store := store, gens := 0, llmCalls := 0 }
  match wanted_modes.foldlM
      (simplify_mode_step page title important_links lang session_id
        force_regen oracle env_model now) acc0 with
  | Except.error e => Except.error e
  | Except.ok acc =>
    let outputs := ["easy_read", "checklist", "step_by_step"].foldl
      (fun o m => o.setdefault m pynone) acc.outputs
    let ids := ["easy_read", "checklist", "step_by_step"].foldl
      (fun i m => idsSetdefault i m "") acc.simpl_ids
    Except.ok
      { url := page.url
        page_id := page.page_id
        source_text_hash := page.source_text_hash
        language := lang
        model := acc.model_used_any
        outputs := outputs
        simplification_ids := ids
        store := acc.store
        gens := acc.gens
        llmCalls := acc.llmCalls }

/-! ## The `ipaddress` library model

Executable model of `ipaddress.ip_address` and the address attributes used
by `_is_private_ip`, per CPython's `ipaddress` module (IPv4 addresses are
`Nat < 2^32`, IPv6 addresses `Nat < 2^128`; scoped-zone suffixes and
bracket forms are not modelled and fail to parse, which the guard treats as
blocked). -/

/-- A parsed IP address. -/
inductive IPAddr where
  | v4 (n : Nat)
  | v6 (n : Nat)
deriving DecidableEq

/-- `str.split(sep)` for a one-character separator, over character lists
(every occurrence splits; empty fields are kept, as in Python). -/
def splitOnChar (sep : Char) : List Char → List Char → List (List Char)
  | [], acc => [acc.reverse]
  | c :: rest, acc =>
    if c = sep then acc.reverse :: splitOnChar sep rest []
    else splitOnChar sep rest (c :: acc)

/-- `str.split("::")`: split on the two-character separator, scanning left
to right over non-overlapping occurrences. -/
def splitOnColonColon : List Char → List Char → List (List Char)
  | [], acc => [acc.reverse]
  | ':' :: ':' :: rest, acc => acc.reverse :: splitOnColonColon rest []
  | c :: rest, acc => splitOnColonColon rest (c :: acc)

/-- One dotted-quad octet: decimal, `0..255`, no leading zero. -/
def parseOctet (cs : List Char) : Option Nat :=
  if cs.isEmpty || cs.length > 3 then Option.none
  else if !(cs.all Char.isDigit) then Option.none
  else if cs.length > 1 && cs.headD '0' = '0' then Option.none
  else
    let n := digitsToNat cs
    if n ≤ 255 then some n else Option.none

/-- `IPv4Address` text parse. -/
def parseIPv4 (s : String) : Option Nat :=
  match (splitOnChar '.' s.data []).mapM parseOctet with
  | some [a, b, c, d] => some (((a * 256 + b) * 256 + c) * 256 + d)
  | _ => Option.none

/-- One 16-bit IPv6 group: one to four hex digits. -/
def parseGroup16 (cs : List Char) : Option Nat :=
  if cs.isEmpty || cs.length > 4 then Option.none
  else (cs.mapM hexVal).map (fun ds => ds.foldl (fun a d => a * 16 + d) 0)

/-- Groups of one side of an IPv6 literal, the last group possibly an
embedded dotted-quad (two 16-bit groups). -/
def parseGroups (parts : List (List Char)) : Option (List Nat) :=
  match parts with
  | [] => some []
  | [p] =>
    match parseGroup16 p with
    | some g => some [g]
    | Option.none =>
      match parseIPv4 (String.mk p) with
      | some n => some [n / 65536, n % 65536]
      | Option.none => Option.none
  | p :: rest =>
    match parseGroup16 p, parseGroups rest with
    | some g, some gs => some (g :: gs)
    | _, _ => Option.none

/-- 128-bit value of a full group list. -/
def groupsToNat (gs : List Nat) : Nat :=
  gs.foldl (fun a g => a * 65536 + g) 0

/-- `IPv6Address` text parse: at most one `::`, eight groups total, with
`::` standing for at least one zero group. -/
def parseIPv6 (s : String) : Option Nat :=
  match splitOnColonColon s.data [] with
  | [whole] =>
    match parseGroups (splitOnChar ':' whole []) with
    | some gs => if gs.length = 8 then some (groupsToNat gs) else Option.none
    | Option.none => Option.none
  | [l, r] =>
    let lparts := if l.isEmpty then [] else splitOnChar ':' l []
    let rparts := if r.isEmpty then [] else splitOnChar ':' r []
    match parseGroups lparts, parseGroups rparts with
    | some lgs, some rgs =>
      if lgs.length + rgs.length < 8 then
        some (groupsToNat (lgs ++ List.replicate (8 - lgs.length - rgs.length) 0 ++ rgs))
      else Option.none
    | _, _ => Option.none
  | _ => Option.none

/-- `ipaddress.ip_address`: IPv4 first, then IPv6. -/
def ip_address (s : String) : Option IPAddr :=
  match parseIPv4 s with
  | some n => some (IPAddr.v4 n)
  | Option.none =>
    match parseIPv6 s with
    | some n => some (IPAddr.v6 n)
    | Option.none => Option.none

/-- Membership of an address in a CIDR network over `width`-bit addresses. -/
def inNet (width n net prefixLen : Nat) : Bool :=
  n / 2 ^ (width - prefixLen) = net / 2 ^ (width - prefixLen)

/-- 32-bit value of a dotted quad. -/
def v4Net (a b c d : Nat) : Nat :=
  ((a * 256 + b) * 256 + c) * 256 + d

/-- `IPv4Address._private_networks` membership (CPython). -/
def v4IsPrivate (n : Nat) : Bool :=
  inNet 32 n (v4Net 0 0 0 0) 8 ||
  inNet 32 n (v4Net 10 0 0 0) 8 ||
  inNet 32 n (v4Net 127 0 0 0) 8 ||
  inNet 32 n (v4Net 169 254 0 0) 16 ||
  inNet 32 n (v4Net 172 16 0 0) 12 ||
  inNet 32 n (v4Net 192 0 0 0) 29 ||
  inNet 32 n (v4Net 192 0 0 170) 31 ||
  inNet 32 n (v4Net 192 0 2 0) 24 ||
  inNet 32 n (v4Net 192 168 0 0) 16 ||
  inNet 32 n (v4Net 198 18 0 0) 15 ||
  inNet 32 n (v4Net 198 51 100 0) 24 ||
  inNet 32 n (v4Net 203 0 113 0) 24 ||
  inNet 32 n (v4Net 240 0 0 0) 4 ||
  inNet 32 n (v4Net 255 255 255 255) 32

/-- 128-bit value from eight 16-bit groups. -/
def v6Net (g0 g1 g2 g3 g4 g5 g6 g7 : Nat) : Nat :=
  groupsToNat [g0, g1, g2, g3, g4, g5, g6, g7]

/-- `IPv6Address._private_networks` membership (CPython). -/
def v6IsPrivate (n : Nat) : Bool :=
  n = 1 ||                                         -- ::1/128
  n = 0 ||                                         -- ::/128
  inNet 128 n (v6Net 0 0 0 0 0 0xffff 0 0) 96 ||
  inNet 128 n (v6Net 0x100 0 0 0 0 0 0 0) 64 ||
  inNet 128 n (v6Net 0x2001 0 0 0 0 0 0 0) 23 ||
  inNet 128 n (v6Net 0x2001 2 0 0 0 0 0 0) 48 ||
  inNet 128 n (v6Net 0x2001 0xdb8 0 0 0 0 0 0) 32 ||
  inNet 128 n (v6Net 0x2001 0x10 0 0 0 0 0 0) 28 ||
  inNet 128 n (v6Net 0xfc00 0 0 0 0 0 0 0) 7 ||
  inNet 128 n (v6Net 0xfe80 0 0 0 0 0 0 0) 10

/-- `IPv6Address._reserved_networks` membership (CPython). -/
def v6IsReserved (n : Nat) : Bool :=
  inNet 128 n 0 8 ||
  inNet 128 n (v6Net 0x100 0 0 0 0 0 0 0) 8 ||
  inNet 128 n (v6Net 0x200 0 0 0 0 0 0 0) 7 ||
  inNet 128 n (v6Net 0x400 0 0 0 0 0 0 0) 6 ||
  inNet 128 n (v6Net 0x800 0 0 0 0 0 0 0) 5 ||
  inNet 128 n (v6Net 0x1000 0 0 0 0 0 0 0) 4 ||
  inNet 128 n (v6Net 0x4000 0 0 0 0 0 0 0) 3 ||
  inNet 128 n (v6Net 0x6000 0 0 0 0 0 0 0) 3 ||
  inNet 128 n (v6Net 0x8000 0 0 0 0 0 0 0) 3 ||
  inNet 128 n (v6Net 0xa000 0 0 0 0 0 0 0) 3 ||
  inNet 128 n (v6Net 0xc000 0 0 0 0 0 0 0) 3 ||
  inNet 128 n (v6Net 0xe000 0 0 0 0 0 0 0) 4 ||
  inNet 128 n (v6Net 0xf000 0 0 0 0 0 0 0) 5 ||
  inNet 128 n (v6Net 0xf800 0 0 0 0 0 0 0) 6 ||
  inNet 128 n (v6Net 0xfe00 0 0 0 0 0 0 0) 9

namespace IPAddr

/-- `.is_private`. -/
def is_private : IPAddr → Bool
  | v4 n => v4IsPrivate n
  | v6 n => v6IsPrivate n

/-- `.is_loopback`. -/
def is_loopback : IPAddr → Bool
  | v4 n => inNet 32 n (v4Net 127 0 0 0) 8
  | v6 n => n = 1

/-- `.is_link_local`. -/
def is_link_local : IPAddr → Bool
  | v4 n => inNet 32 n (v4Net 169 254 0 0) 16
  | v6 n => inNet 128 n (v6Net 0xfe80 0 0 0 0 0 0 0) 10

/-- `.is_reserved`. -/
def is_reserved : IPAddr → Bool
  | v4 n => inNet 32 n (v4Net 240 0 0 0) 4
  | v6 n => v6IsReserved n

/-- `.is_multicast`. -/
def is_multicast : IPAddr → Bool
  | v4 n => inNet 32 n (v4Net 224 0 0 0) 4
  | v6 n => inNet 128 n (v6Net 0xff00 0 0 0 0 0 0 0) 8

/-- `.is_unspecified`. -/
def is_unspecified : IPAddr → Bool
  | v4 n => n = 0
  | v6 n => n = 0

end IPAddr

/-! ## `services/scraper.py`: the SSRF hostname guard

`socket.getaddrinfo` is an external collaborator; its outcome is passed in
as `resolved : Option (List String)` (`Option.none` models `gaierror`, the
list holds the distinct resolved address strings). -/

/-- `BLOCKED_HOSTS`. -/
def BLOCKED_HOSTS : List String := ["localhost", "127.0.0.1", "::1"]

/-- `_is_private_ip` (services/scraper.py): parse, then check the six
blocking attributes; an unparseable string (`ValueError`) counts as
blocked. -/
def _is_private_ip (ip : String) : Bool :=
  match ip_address ip with
  | some addr =>
    addr.is_private || addr.is_loopback || addr.is_link_local ||
    addr.is_reserved || addr.is_multicast || addr.is_unspecified
  | Option.none => true

/-- `assert_public_hostname` (services/scraper.py): static denylist, then
DNS resolution, then the per-address check; any failure raises (modelled as
`Except.error` carrying the HTTP detail string). -/
def assert_public_hostname (hostname : String)
    (resolved : Option (List String)) : Except String Unit :=
  if BLOCKED_HOSTS.contains (asciiLower hostname) then
    Except.error "URL hostname is not allowed"
  else
    match resolved with
    | Option.none => Except.error "DNS lookup failed"
    | some ips =>
      if ips.isEmpty then Except.error "DNS lookup failed"
      else if ips.any _is_private_ip then
        Except.error "URL resolves to a private/blocked IP"
      else Except.ok ()

/-! ## The `urllib.parse` library model

Executable model of `urlsplit`/`urlparse`/`urlunparse`/`urljoin` as used by
`_is_internal_link` and `extract_links_and_images`, per CPython's
`urllib/parse.py`.  The `ValueError` branches for malformed bracketed IPv6
netlocs are not modelled (no claim input reaches them). -/

/-- `pre.isPrefixOf s` on characters (Python `str.startswith`). -/
def pyStartsWith (s pre : String) : Bool :=
  pre.data.isPrefixOf s.data

/-- A character allowed after the first one in a URL scheme. -/
def isSchemeChar (c : Char) : Bool :=
  isAsciiLetter c || c.isDigit || c = '+' || c = '-' || c = '.'

/-- Split at the first occurrence of a character, which is dropped; no
occurrence leaves the input whole with an empty tail
(`url.split(c, 1)` guarded by `c in url`). -/
def splitFirstChar (sep : Char) (cs : List Char) : List Char × List Char :=
  match cs.indexOf? sep with
  | some i => (cs.take i, cs.drop (i + 1))
  | Option.none => (cs, [])

/-- The result of `urlsplit`. -/
structure SplitResult where
  scheme : String
  netloc : String
  path : String
  query : String
  fragment : String

/-- The result of `urlparse`. -/
structure ParseResult where
  scheme : String
  netloc : String
  path : String
  params : String
  query : String
  fragment : String

/-- `_splitnetloc(url, 2)`: the netloc runs to the first `/`, `?` or `#`. -/
def splitnetloc (cs : List Char) : List Char × List Char :=
  match cs.findIdx? (fun c => c = '/' || c = '?' || c = '#') with
  | some i => (cs.take i, cs.drop i)
  | Option.none => (cs, [])

/-- `urlsplit` (urllib/parse.py): strip unsafe leading characters and
tab/CR/LF, detect the scheme, the `//`-prefixed netloc, then the fragment
and the query. -/
def urlsplit (url : String) (scheme : String := "")
    (allow_fragments : Bool := true) : SplitResult :=
  let cs := (url.data.dropWhile (fun c => c.toNat ≤ 0x20)).filter
    (fun c => c ≠ '\t' && c ≠ '\r' && c ≠ '\n')
  let (scheme, cs) := match cs.indexOf? ':' with
    | some i =>
      if 0 < i && isAsciiLetter (cs.headD ' ') && (cs.take i).all isSchemeChar
      then (String.mk ((cs.take i).map Char.toLower), cs.drop (i + 1))
      else (scheme, cs)
    | Option.none => (scheme, cs)
  let (netloc, cs) :=
    if cs.take 2 = ['/', '/'] then splitnetloc (cs.drop 2)
    else ([], cs)
  let (cs, fragment) :=
    if allow_fragments && cs.contains '#' then splitFirstChar '#' cs
    else (cs, [])
  let (cs, query) :=
    if cs.contains '?' then splitFirstChar '?' cs else (cs, [])
  { scheme := scheme, netloc := String.mk netloc, path := String.mk cs,
    query := String.mk query, fragment := String.mk fragment }

/-- `_splitparams`: split `;params` off the last path segment only. -/
def splitparams (url : String) : String × String :=
  let cs := url.data
  if cs.contains '/' then
    let lastSlash := cs.length - 1 - ((cs.reverse.indexOf? '/').getD 0)
    match (cs.drop lastSlash).indexOf? ';' with
    | some j => (String.mk (cs.take (lastSlash + j)),
                 String.mk (cs.drop (lastSlash + j + 1)))
    | Option.none => (url, "")
  else
    match cs.indexOf? ';' with
    | some i => (String.mk (cs.take i), String.mk (cs.drop (i + 1)))
    | Option.none => (url, "")

/-- `urlparse` (urllib/parse.py). -/
def urlparse (url : String) (scheme : String := "")
    (allow_fragments : Bool := true) : ParseResult :=
  let r := urlsplit url scheme allow_fragments
  let (path, params) :=
    if r.path.data.contains ';' then splitparams r.path else (r.path, "")
  { scheme := r.scheme, netloc := r.netloc, path := path, params := params,
    query := r.query, fragment := r.fragment }

/-- `uses_relative` (urllib/parse.py). -/
def uses_relative : List String :=
  ["", "ftp", "http", "gopher", "nntp", "imap", "wais", "file", "https",
   "shttp", "mms", "prospero", "rtsp", "rtspu", "sftp", "svn", "svn+ssh",
   "ws", "wss"]

/-- `uses_netloc` (urllib/parse.py). -/
def uses_netloc : List String :=
  ["", "ftp", "http", "gopher", "nntp", "telnet", "imap", "wais", "file",
   "mms", "https", "shttp", "snews", "prospero", "rtsp", "rtspu", "rsync",
   "svn", "svn+ssh", "sftp", "nfs", "git", "git+ssh", "ws", "wss"]

/-- `urlunsplit` (urllib/parse.py). -/
def urlunsplit (scheme netloc url query fragment : String) : String :=
  let url :=
    if !netloc.isEmpty || (!url.isEmpty && pyStartsWith url "//") then
      let url := if !url.isEmpty && !(pyStartsWith url "/") then "/" ++ url else url
      "//" ++ netloc ++ url
    else url
  let url := if !scheme.isEmpty then scheme ++ ":" ++ url else url
  let url := if !query.isEmpty then url ++ "?" ++ query else url
  if !fragment.isEmpty then url ++ "#" ++ fragment else url

/-- `urlunparse` (urllib/parse.py). -/
def urlunparse (scheme netloc url params query fragment : String) : String :=
  let url := if !params.isEmpty then url ++ ";" ++ params else url
  urlunsplit scheme netloc url query fragment

/-- `segments[1:-1] = filter(None, segments[1:-1])`: drop empty inner
segments, keeping the first and last. -/
def filterInner (segs : List String) : List String :=
  match segs with
  | [] => []
  | [s] => [s]
  | s :: rest =>
    s :: ((rest.dropLast.filter (fun x => !x.isEmpty)) ++
      [rest.getLastD ""])

/-- The `..`/`.` resolution loop of `urljoin`. -/
def resolveSegs : List String → List String → List String
  | [], acc => acc
  | seg :: rest, acc =>
    if seg = ".." then resolveSegs rest acc.dropLast
    else if seg = "." then resolveSegs rest acc
    else resolveSegs rest (acc ++ [seg])

/-- `str.split("/")` on a string. -/
def splitSlash (s : String) : List String :=
  (splitOnChar '/' s.data []).map String.mk

/-- `urljoin` (urllib/parse.py). -/
def urljoin (base url : String) : String :=
  if base.isEmpty then url
  else if url.isEmpty then base
  else
    let b := urlparse base "" true
    let u := urlparse url b.scheme true
    if u.scheme ≠ b.scheme || !(uses_relative.contains u.scheme) then url
    else if uses_netloc.contains u.scheme && !u.netloc.isEmpty then
      urlunparse u.scheme u.netloc u.path u.params u.query u.fragment
    else
      let netloc := if uses_netloc.contains u.scheme then b.netloc else u.netloc
      if u.path.isEmpty && u.params.isEmpty then
        let query := if u.query.isEmpty then b.query else u.query
        urlunparse u.scheme netloc b.path b.params query u.fragment
      else
        let base_parts := splitSlash b.path
        let base_parts :=
          if base_parts.getLastD "" ≠ "" then base_parts.dropLast
          else base_parts
        let segments :=
          if pyStartsWith u.path "/" then splitSlash u.path
          else filterInner (base_parts ++ splitSlash u.path)
        let resolved_path := resolveSegs segments []
        let resolved_path :=
          if segments.getLastD "" = "." || segments.getLastD "" = ".." then
            resolved_path ++ [""]
          else resolved_path
        let path := String.intercalate "/" resolved_path
        let path := if path.isEmpty then "/" else path
        urlunparse u.scheme netloc path u.params u.query u.fragment

/-! ## `services/scraper.py`: text cleaning and link/image extraction

The parsed DOM is an external collaborator (BeautifulSoup); the anchor and
image tags found by `root.find_all`, in document order, are the inputs. -/

/-- `_clean_text` (services/scraper.py): collapse whitespace runs to single
spaces and strip the ends. -/
def _clean_text (s : String) : String :=
  String.intercalate " " (pySplitWs s)

/-- An `<a>` tag: its `href` attribute and its text content. -/
structure AnchorTag where
  href : Option String
  text : String

/-- An `<img>` tag: its source attributes and alt text. -/
structure ImgTag where
  src : Option String := Option.none
  data_src : Option String := Option.none
  data_lazy_src : Option String := Option.none
  alt : Option String := Option.none

/-- `_is_internal_link` (services/scraper.py). -/
def _is_internal_link (base_url href : String) : Bool :=
  let b := urlparse base_url "" true
  let u := urlparse href "" true
  if u.netloc.isEmpty then true
  else u.netloc = b.netloc

/-- Python `a or b` over optional strings (`None` and `""` are falsy). -/
def pyOrStr (a b : Option String) : Option String :=
  match a with
  | some s => if !s.isEmpty then some s else b
  | Option.none => b

/-- The anchor loop of `extract_links_and_images`. -/
def extractLinksGo (base_url : String) (max_links : Nat) :
    List AnchorTag → List LinkItem → List LinkItem
  | [], links => links
  | a :: rest, links =>
    match a.href with
    | Option.none => extractLinksGo base_url max_links rest links
    | some href =>
      if href.isEmpty then extractLinksGo base_url max_links rest links
      else
        let abs_href := urljoin base_url href
        if pyStartsWith abs_href "mailto:" || pyStartsWith abs_href "tel:" ||
            pyStartsWith abs_href "javascript:" || pyStartsWith abs_href "#"
        then extractLinksGo base_url max_links rest links
        else
          let text := _clean_text a.text
          let links := links ++
            [⟨abs_href, text, _is_internal_link base_url abs_href⟩]
          if links.length ≥ max_links then links
          else extractLinksGo base_url max_links rest links

/-- The image loop of `extract_links_and_images`. -/
def extractImagesGo (base_url : String) (max_images : Nat) :
    List ImgTag → List ImageItem → List ImageItem
  | [], images => images
  | img :: rest, images =>
    let src := pyOrStr (pyOrStr img.src img.data_src) img.data_lazy_src
    match src with
    | Option.none => extractImagesGo base_url max_images rest images
    | some s =>
      if s.isEmpty then extractImagesGo base_url max_images rest images
      else
        let abs_src := urljoin base_url s
        let alt := _clean_text (img.alt.getD "")
        let images := images ++ [⟨abs_src, alt⟩]
        if images.length ≥ max_images then images
        else extractImagesGo base_url max_images rest images

/-- `extract_links_and_images` (services/scraper.py). -/
def extract_links_and_images (anchors : List AnchorTag) (imgs : List ImgTag)
    (base_url : String) (max_links : Nat := 600) (max_images : Nat := 300) :
    List LinkItem × List ImageItem :=
  (extractLinksGo base_url max_links anchors [],
   extractImagesGo base_url max_images imgs [])

/-- What the anchor loop emits for one tag: the href resolved against the
base URL, unless absent, empty, or the *resolved* URL starts with
`mailto:`, `tel:`, `javascript:` or `#`. -/
def linkOf (base_url : String) (a : AnchorTag) : Option LinkItem :=
  match a.href with
  | Option.none => Option.none
  | some href =>
    if href.isEmpty then Option.none
    else
      let abs_href := urljoin base_url href
      if pyStartsWith abs_href "mailto:" || pyStartsWith abs_href "tel:" ||
          pyStartsWith abs_href "javascript:" || pyStartsWith abs_href "#"
      then Option.none
      else some ⟨abs_href, _clean_text a.text,
        _is_internal_link base_url abs_href⟩

/-- What the image loop emits for one tag: the first truthy of
`src`/`data-src`/`data-lazy-src`, resolved against the base URL. -/
def imageOf (base_url : String) (img : ImgTag) : Option ImageItem :=
  match pyOrStr (pyOrStr img.src img.data_src) img.data_lazy_src with
  | Option.none => Option.none
  | some s =>
    if s.isEmpty then Option.none
    else some ⟨urljoin base_url s, _clean_text (img.alt.getD "")⟩

/-! # Theorems

Helper lemmas about the embedded primitives, then one theorem per claim. -/

namespace PyVal

theorem lookup_setKey_go (es : List (String × PyVal)) (k0 : String)
    (v : PyVal) (k : String) :
    (setKey.go es k0 v).lookup k = if k0 = k then some v else es.lookup k := by
  induction es with
  | nil =>
    by_cases h : k0 = k
    · subst h
      simp [setKey.go, List.lookup]
    · have hb : (k == k0) = false :=
        beq_eq_false_iff_ne.mpr (fun hc => h hc.symm)
      simp [setKey.go, List.lookup, hb, h]
  | cons e rest ih =>
    obtain ⟨k1, v1⟩ := e
    by_cases h1 : k1 = k0
    · subst h1
      by_cases h : k1 = k
      · subst h
        simp [setKey.go, List.lookup]
      · have hb : (k == k1) = false :=
          beq_eq_false_iff_ne.mpr (fun hc => h hc.symm)
        simp [setKey.go, List.lookup, hb, h]
    · by_cases h : k1 = k
      · subst h
        have hk0f : ¬ k0 = k1 := fun hc => h1 hc.symm
        simp [setKey.go, h1, List.lookup, hk0f]
      · have hb : (k == k1) = false :=
          beq_eq_false_iff_ne.mpr (fun hc => h hc.symm)
        simp [setKey.go, h1, List.lookup, hb, ih]

theorem get_setKey (es : List (String × PyVal)) (k0 : String) (v : PyVal)
    (k : String) :
    ((pydict es).setKey k0 v).get k =
      if k0 = k then some v else (pydict es).get k := by
  simp [setKey, get, lookup_setKey_go]

theorem get_setdefault_ne (d : PyVal) (k0 : String) (v : PyVal) (k : String)
    (h : k0 ≠ k) : (d.setdefault k0 v).get k = d.get k := by
  cases d with
  | pydict es =>
    by_cases hk : (pydict es).hasKey k0
    · simp [setdefault, hk]
    · simp only [setdefault, hk, Bool.false_eq_true, if_false]
      rw [get_setKey]
      simp [h]
  | pynone => rfl
  | pybool b => rfl
  | pyint n => rfl
  | pyfloat l => rfl
  | pystr s => rfl
  | pylist xs => rfl

theorem hasKey_setdefault_ne (d : PyVal) (k0 : String) (v : PyVal)
    (k : String) (h : k0 ≠ k) :
    (d.setdefault k0 v).hasKey k = d.hasKey k := by
  simp [hasKey, get_setdefault_ne d k0 v k h]

theorem hasKey_setdefault_self (d : PyVal) (k0 : String) (v : PyVal)
    (hd : d.isDict = true) : (d.setdefault k0 v).hasKey k0 = true := by
  cases d with
  | pydict es =>
    by_cases hk : (pydict es).hasKey k0
    · simp [setdefault, hk]
    · have hk2 : ((pydict es).get k0).isSome = false := by
        simpa [hasKey] using hk
      simp only [setdefault, hasKey, hk2, Bool.false_eq_true, if_false]
      rw [get_setKey]
      simp
  | pynone => simp [isDict] at hd
  | pybool b => simp [isDict] at hd
  | pyint n => simp [isDict] at hd
  | pyfloat l => simp [isDict] at hd
  | pystr s => simp [isDict] at hd
  | pylist xs => simp [isDict] at hd

theorem isDict_setdefault (d : PyVal) (k0 : String) (v : PyVal) :
    (d.setdefault k0 v).isDict = d.isDict := by
  cases d with
  | pydict es =>
    by_cases hk : (pydict es).hasKey k0
    · simp [setdefault, hk]
    · simp [setdefault, hk, setKey, isDict]
  | pynone => rfl
  | pybool b => rfl
  | pyint n => rfl
  | pyfloat l => rfl
  | pystr s => rfl
  | pylist xs => rfl

theorem hasKey_setdefault_mono (d : PyVal) (k0 : String) (v : PyVal)
    (k : String) (h : d.hasKey k = true) :
    (d.setdefault k0 v).hasKey k = true := by
  by_cases hk : k0 = k
  · subst hk
    cases d with
    | pydict es => exact hasKey_setdefault_self _ _ _ rfl
    | pynone => simp [hasKey, get] at h
    | pybool b => simp [hasKey, get] at h
    | pyint n => simp [hasKey, get] at h
    | pyfloat l => simp [hasKey, get] at h
    | pystr s => simp [hasKey, get] at h
    | pylist xs => simp [hasKey, get] at h
  · rw [hasKey_setdefault_ne d k0 v k hk]
    exact h

end PyVal

theorem ensure_dict_isDict (x : PyVal) : (ensure_dict x).isDict = true := by
  cases x <;> simp [ensure_dict, isDict]

theorem validate_easy_read_ok_hasKey (o : PyVal)
    (h : (validate_easy_read o).1 = true) :
    ∀ k ∈ ["mode", "about", "key_points", "sections", "important_links",
           "warnings", "glossary"], o.hasKey k = true := by
  intro k hk
  cases hf : (["mode", "about", "key_points", "sections", "important_links",
      "warnings", "glossary"].find? (fun k => !(o.hasKey k))) with
  | some k2 => simp [validate_easy_read, hf] at h
  | none =>
    have := List.find?_eq_none.mp hf k hk
    simpa using this

theorem validate_step_by_step_ok_hasKey (o : PyVal)
    (h : (validate_step_by_step o).1 = true) :
    ∀ k ∈ ["mode", "goal", "steps", "finish_check"], o.hasKey k = true := by
  intro k hk
  cases hf : (["mode", "goal", "steps", "finish_check"].find?
      (fun k => !(o.hasKey k))) with
  | some k2 => simp [validate_step_by_step, hf] at h
  | none =>
    have := List.find?_eq_none.mp hf k hk
    simpa using this

theorem normalize_checklist_hasKey (d : PyVal) (hd : d.isDict = true)
    (k : String)
    (hk : k ∈ ["mode", "goal", "requirements", "documents", "fees",
               "deadlines", "actions", "common_mistakes"]) :
    (normalize_checklist d).hasKey k = true := by
  unfold normalize_checklist
  have hbase : (match d.get "checklist" with
      | some inner => if inner.isDict then inner else d
      | Option.none => d).isDict = true := by
    cases hg : d.get "checklist" with
    | none => simpa using hd
    | some inner =>
      by_cases hi : inner.isDict = true
      · simp [hi]
      · simp [hi, hd]
  simp only [List.mem_cons, List.mem_singleton, List.not_mem_nil,
    or_false] at hk
  rcases hk with rfl | rfl | rfl | rfl | rfl | rfl | rfl | rfl <;>
    dsimp only <;>
    repeat
      first
      | (apply hasKey_setdefault_self
         try simp only [isDict_setdefault]
         exact hbase)
      | apply hasKey_setdefault_mono

/-- Splitting a pipe-separated field off a pipe-free prefix is unambiguous. -/
theorem append_pipe_inj (xs : List Char) :
    ∀ (ys as bs : List Char), '|' ∉ xs → '|' ∉ ys →
    xs ++ '|' :: as = ys ++ '|' :: bs → xs = ys ∧ as = bs := by
  induction xs with
  | nil =>
    intro ys as bs _ hy h
    cases ys with
    | nil => simpa using h
    | cons y ys =>
      simp at h
      exfalso
      exact hy (by simp [h.1.symm])
  | cons x xs ih =>
    intro ys as bs hx hy h
    cases ys with
    | nil =>
      simp at h
      exact absurd (by simp [h.1] : '|' ∈ x :: xs) hx
    | cons y ys =>
      simp at h
      obtain ⟨hxy, htail⟩ := h
      have := ih ys as bs (fun hm => hx (List.mem_cons_of_mem _ hm))
        (fun hm => hy (List.mem_cons_of_mem _ hm)) htail
      exact ⟨by simp [hxy, this.1], this.2⟩

/-- **C3, counterexample.**  The claim asserts that the concatenation
`url|mode|language|hash` is injective over input tuples, hence that the id
changes whenever any component changes.  Moving the substring `|b` across
the first separator produces two different tuples with the same key string,
hence the same `simplification_id`. -/
theorem C3_counterexample :
    simplification_id_for "a|b" "c" "d" "e" =
      simplification_id_for "a" "b|c" "d" "e" ∧
    ("a|b", "c", "d", "e") ≠ ("a", "b|c", "d", "e") := by
  constructor
  · exact congrArg sha256_hex (by rfl :
      simplification_key "a|b" "c" "d" "e" = simplification_key "a" "b|c" "d" "e")
  · intro h
    simp at h

/-- **C3, amended.**  `simplification_id_for` is a pure function of the
four inputs, equal to the SHA-256 hex digest of the joined key, and the key
construction is injective over tuples whose `url`, `mode` and `language`
contain no `'|'` separator (the stored `source_text_hash` is a hex digest,
so it never contains one); tuples with `'|'` inside those components can
collide (see the counterexample). -/
theorem C3_amended (u1 m1 l1 h1 u2 m2 l2 h2 : String)
    (hu1 : '|' ∉ u1.data) (hm1 : '|' ∉ m1.data) (hl1 : '|' ∉ l1.data)
    (hu2 : '|' ∉ u2.data) (hm2 : '|' ∉ m2.data) (hl2 : '|' ∉ l2.data)
    (h : simplification_key u1 m1 l1 h1 = simplification_key u2 m2 l2 h2) :
    u1 = u2 ∧ m1 = m2 ∧ l1 = l2 ∧ h1 = h2 ∧
    simplification_id_for u1 m1 l1 h1 = simplification_id_for u2 m2 l2 h2 := by
  have hd : u1.data ++ '|' :: (m1.data ++ '|' :: (l1.data ++ '|' :: h1.data)) =
      u2.data ++ '|' :: (m2.data ++ '|' :: (l2.data ++ '|' :: h2.data)) := by
    have := congrArg String.data h
    simpa [simplification_key, String.data_append] using this
  obtain ⟨hu, hrest⟩ := append_pipe_inj _ _ _ _ hu1 hu2 hd
  obtain ⟨hm, hrest2⟩ := append_pipe_inj _ _ _ _ hm1 hm2 hrest
  obtain ⟨hl, hh⟩ := append_pipe_inj _ _ _ _ hl1 hl2 hrest2
  refine ⟨?_, ?_, ?_, ?_, ?_⟩
  · exact String.ext hu
  · exact String.ext hm
  · exact String.ext hl
  · exact String.ext hh
  · simp [simplification_id_for, h]

/-- **C3, witness.** -/
theorem C3_amended_witness :
    "u" = "u" ∧ "m" = "m" ∧ "l" = "l" ∧ "h" = "h" ∧
    simplification_id_for "u" "m" "l" "h" =
      simplification_id_for "u" "m" "l" "h" :=
  C3_amended "u" "m" "l" "h" "u" "m" "l" "h"
    (by decide) (by decide) (by decide)
    (by decide) (by decide) (by decide) rfl

/-- **C6.**  For every block list and every budget, the linearized text is
hard-truncated to the budget (`24_000` by default in `scrape_url`), and the
stored `source_text_hash` is the SHA-256 hex digest computed over exactly
that truncated string — the one saved as `source_text` — not over the raw
blocks. -/
theorem C6_linearizer_budget_and_hash :
    (∀ (blocks : List ContentBlock) (max_chars : Nat),
      (blocks_to_text blocks max_chars).length ≤ max_chars) ∧
    (∀ (url : String) (blocks : List ContentBlock) (links : List LinkItem)
        (images : List ImageItem),
      (scrape_core url blocks links images).source_text =
        blocks_to_text (safe_trim_blocks blocks) 24000 ∧
      (scrape_core url blocks links images).source_text_hash =
        sha256_hex ((scrape_core url blocks links images).source_text)) := by
  constructor
  · intro blocks max_chars
    have h2 : ∀ (s : String) (n : Nat), (pyTake s n).length ≤ n := by
      intro s n
      show (s.data.take n).length ≤ n
      rw [List.length_take]
      exact Nat.min_le_left _ _
    exact h2 _ _
  · intro url blocks links images
    exact ⟨rfl, rfl⟩

/-- **C1, counterexample.**  The empty object is missing every required
checklist field, yet `validate_by_mode "checklist"` accepts it: the
checklist normalization inserts a default for each required field before
validation runs, so a missing checklist field never causes rejection. -/
theorem C1_counterexample :
    (["mode", "goal", "requirements", "documents", "fees", "deadlines",
      "actions", "common_mistakes"].all
        (fun k => !(pydict []).hasKey k)) = true ∧
    (validate_by_mode "checklist" (pydict [])).1 = true := by decide

/-- **C1, amended.**  After mode normalization, which inserts the mode tag
for every mode and, for `checklist`, a default for every required field:
`validate_by_mode` rejects an `easy_read` object missing any required field
other than `mode`, likewise a `step_by_step` object; the normalized
checklist object always carries every required checklist field, so only a
wrong mode tag or a non-list `requirements` can reject it; and a minimal
well-formed instance of each mode is accepted. -/
theorem C1_amended :
    (∀ (obj : PyVal) (k : String),
      k ∈ ["about", "key_points", "sections", "important_links", "warnings",
           "glossary"] → obj.hasKey k = false →
      (validate_by_mode "easy_read" obj).1 = false) ∧
    (∀ (obj : PyVal) (k : String),
      k ∈ ["goal", "steps", "finish_check"] → obj.hasKey k = false →
      (validate_by_mode "step_by_step" obj).1 = false) ∧
    (∀ (obj : PyVal) (k : String),
      k ∈ ["mode", "goal", "requirements", "documents", "fees", "deadlines",
           "actions", "common_mistakes"] →
      ((validate_by_mode "checklist" obj).2.2).hasKey k = true) ∧
    ((validate_by_mode "easy_read" (pydict
        [("about", pystr "a"), ("key_points", pylist []),
         ("sections", pylist []), ("important_links", pylist []),
         ("warnings", pylist []), ("glossary", pylist [])])).1 = true ∧
     (validate_by_mode "checklist" (pydict
        [("goal", pystr "g"), ("requirements", pylist [])])).1 = true ∧
     (validate_by_mode "step_by_step" (pydict
        [("goal", pystr "g"), ("steps", pylist []),
         ("finish_check", pylist [])])).1 = true) := by
  refine ⟨?_, ?_, ?_, by decide⟩
  · intro obj k hk h
    by_contra hok
    have hok2 : (validate_by_mode "easy_read" obj).1 = true := by
      revert hok
      cases (validate_by_mode "easy_read" obj).1 <;> simp
    have hred : (validate_by_mode "easy_read" obj).1 =
        (validate_easy_read
          ((ensure_dict obj).setdefault "mode" (pystr "easy_read"))).1 := rfl
    rw [hred] at hok2
    have hkreq : k ∈ ["mode", "about", "key_points", "sections",
        "important_links", "warnings", "glossary"] := by
      simp only [List.mem_cons, List.not_mem_nil, or_false] at hk ⊢
      tauto
    have hkey := validate_easy_read_ok_hasKey _ hok2 k hkreq
    have hkne : "mode" ≠ k := by
      simp only [List.mem_cons, List.not_mem_nil, or_false] at hk
      rcases hk with rfl | rfl | rfl | rfl | rfl | rfl <;> decide
    rw [hasKey_setdefault_ne _ _ _ _ hkne] at hkey
    cases obj with
    | pydict es =>
      rw [show ensure_dict (pydict es) = pydict es from rfl] at hkey
      rw [h] at hkey
      cases hkey
    | pynone => simp [hasKey, PyVal.get, ensure_dict, PyVal.isDict] at hkey
    | pybool b => simp [hasKey, PyVal.get, ensure_dict, PyVal.isDict] at hkey
    | pyint n => simp [hasKey, PyVal.get, ensure_dict, PyVal.isDict] at hkey
    | pyfloat l => simp [hasKey, PyVal.get, ensure_dict, PyVal.isDict] at hkey
    | pystr s => simp [hasKey, PyVal.get, ensure_dict, PyVal.isDict] at hkey
    | pylist xs => simp [hasKey, PyVal.get, ensure_dict, PyVal.isDict] at hkey
  · intro obj k hk h
    by_contra hok
    have hok2 : (validate_by_mode "step_by_step" obj).1 = true := by
      revert hok
      cases (validate_by_mode "step_by_step" obj).1 <;> simp
    have hred : (validate_by_mode "step_by_step" obj).1 =
        (validate_step_by_step
          ((ensure_dict obj).setdefault "mode" (pystr "step_by_step"))).1 := rfl
    rw [hred] at hok2
    have hkreq : k ∈ ["mode", "goal", "steps", "finish_check"] := by
      simp only [List.mem_cons, List.not_mem_nil, or_false] at hk ⊢
      tauto
    have hkey := validate_step_by_step_ok_hasKey _ hok2 k hkreq
    have hkne : "mode" ≠ k := by
      simp only [List.mem_cons, List.not_mem_nil, or_false] at hk
      rcases hk with rfl | rfl | rfl <;> decide
    rw [hasKey_setdefault_ne _ _ _ _ hkne] at hkey
    cases obj with
    | pydict es =>
      rw [show ensure_dict (pydict es) = pydict es from rfl] at hkey
      rw [h] at hkey
      cases hkey
    | pynone => simp [hasKey, PyVal.get, ensure_dict, PyVal.isDict] at hkey
    | pybool b => simp [hasKey, PyVal.get, ensure_dict, PyVal.isDict] at hkey
    | pyint n => simp [hasKey, PyVal.get, ensure_dict, PyVal.isDict] at hkey
    | pyfloat l => simp [hasKey, PyVal.get, ensure_dict, PyVal.isDict] at hkey
    | pystr s => simp [hasKey, PyVal.get, ensure_dict, PyVal.isDict] at hkey
    | pylist xs => simp [hasKey, PyVal.get, ensure_dict, PyVal.isDict] at hkey
  · intro obj k hk
    have hred : (validate_by_mode "checklist" obj).2.2 =
        normalize_checklist (ensure_dict obj) := rfl
    rw [hred]
    exact normalize_checklist_hasKey _ (ensure_dict_isDict obj) k hk

/-- **C1, witness.** -/
theorem C1_amended_witness :
    (validate_by_mode "easy_read" (pydict [("mode", pystr "easy_read")])).1 =
      false ∧
    (validate_by_mode "step_by_step" (pydict [])).1 = false ∧
    ((validate_by_mode "checklist" (pydict [])).2.2).hasKey "fees" = true :=
  ⟨C1_amended.1 (pydict [("mode", pystr "easy_read")]) "about" (by decide)
     (by decide),
   C1_amended.2.1 (pydict []) "goal" (by decide) (by decide),
   C1_amended.2.2.1 (pydict []) "fees" (by decide)⟩

theorem genLoop_zero (mode lang : String) (oracle : Nat → String × String)
    (env : String) (i : Nat) (msgs : List Msg) (lr ls : String)
    (tr : List (List Msg × String)) :
    genLoop mode lang oracle env i 0 msgs lr ls tr =
      { output := pydict [("mode", pystr mode), ("raw", pystr lr),
                          ("error", pystr ls)]
        model := env, calls := tr.length, trace := tr } := rfl

theorem genLoop_succ (mode lang : String) (oracle : Nat → String × String)
    (env : String) (i left : Nat) (msgs : List Msg) (lr ls : String)
    (tr : List (List Msg × String)) :
    genLoop mode lang oracle env i (left + 1) msgs lr ls tr =
      (let raw := (oracle i).1
       let ev := evalAttempt mode lang raw
       let tr2 := tr ++ [(msgs, raw)]
       if ev.okSchema && ev.okLang then
         { output := ev.objNorm, model := (oracle i).2, calls := tr2.length,
           trace := tr2 }
       else
         genLoop mode lang oracle env (i + 1) left
           (if left > 0 then
              msgs ++ [("assistant", raw),
                ("user", corrective_message
                  (ev.reasonSchema ++ "; " ++ ev.reasonLang) lang)]
            else msgs)
           raw (ev.reasonSchema ++ "; " ++ ev.reasonLang) tr2) := rfl

theorem genLoop_calls_eq (mode lang : String) (oracle : Nat → String × String)
    (env : String) : ∀ (n i : Nat) (msgs : List Msg) (lr ls : String)
    (tr : List (List Msg × String)),
    (genLoop mode lang oracle env i n msgs lr ls tr).calls =
      (genLoop mode lang oracle env i n msgs lr ls tr).trace.length := by
  intro n
  induction n with
  | zero => intro i msgs lr ls tr; rw [genLoop_zero]
  | succ left ih =>
    intro i msgs lr ls tr
    rw [genLoop_succ]
    dsimp only
    by_cases hc : ((evalAttempt mode lang (oracle i).1).okSchema &&
        (evalAttempt mode lang (oracle i).1).okLang) = true
    · simp [hc]
    · simp only [Bool.not_eq_true] at hc
      simp [hc, ih]

theorem genLoop_trace_le (mode lang : String) (oracle : Nat → String × String)
    (env : String) : ∀ (n i : Nat) (msgs : List Msg) (lr ls : String)
    (tr : List (List Msg × String)),
    (genLoop mode lang oracle env i n msgs lr ls tr).trace.length ≤
      tr.length + n := by
  intro n
  induction n with
  | zero => intro i msgs lr ls tr; rw [genLoop_zero]; simp
  | succ left ih =>
    intro i msgs lr ls tr
    rw [genLoop_succ]
    dsimp only
    by_cases hc : ((evalAttempt mode lang (oracle i).1).okSchema &&
        (evalAttempt mode lang (oracle i).1).okLang) = true
    · simp [hc]
    · simp only [Bool.not_eq_true] at hc
      simp only [hc, Bool.false_eq_true, if_false]
      calc _ ≤ (tr ++ [(msgs, (oracle i).1)]).length + left := ih _ _ _ _ _
        _ ≤ tr.length + (left + 1) := by
          simp only [List.length_append, List.length_cons, List.length_nil]
          omega

theorem reason_ne_empty (s t : String) : s ++ "; " ++ t ≠ "" := by
  intro h
  have := congrArg String.data h
  simp [String.data_append] at this

theorem genLoop_two_attempts (mode lang : String)
    (oracle : Nat → String × String) (env : String) (msgs : List Msg)
    (hfail0 : attemptFails mode lang (oracle 0).1 = true) :
    (genLoop mode lang oracle env 0 2 msgs "" "" []).calls = 2 ∧
    (genLoop mode lang oracle env 0 2 msgs "" "" []).trace.map Prod.fst =
      [msgs, msgs ++ [("assistant", (oracle 0).1),
        ("user", corrective_message (attemptReason mode lang (oracle 0).1)
          lang)]] ∧
    (attemptFails mode lang (oracle 1).1 = true →
      (genLoop mode lang oracle env 0 2 msgs "" "" []).output =
        pydict [("mode", pystr mode), ("raw", pystr (oracle 1).1),
          ("error", pystr (attemptReason mode lang (oracle 1).1))]) := by
  have hc0 : ((evalAttempt mode lang (oracle 0).1).okSchema &&
      (evalAttempt mode lang (oracle 0).1).okLang) = false := by
    revert hfail0
    unfold attemptFails
    cases ((evalAttempt mode lang (oracle 0).1).okSchema &&
      (evalAttempt mode lang (oracle 0).1).okLang) <;> simp
  have h2 : (2 : Nat) = 1 + 1 := rfl
  rw [h2, genLoop_succ]
  dsimp only
  rw [hc0]
  simp only [Bool.false_eq_true, if_false, Nat.lt_irrefl, gt_iff_lt,
    Nat.zero_lt_one, if_pos, List.nil_append]
  set msgs2 := msgs ++ [("assistant", (oracle 0).1),
    ("user", corrective_message (attemptReason mode lang (oracle 0).1) lang)]
    with hmsgs2
  have hmre : (evalAttempt mode lang (oracle 0).1).reasonSchema ++ "; " ++
      (evalAttempt mode lang (oracle 0).1).reasonLang =
      attemptReason mode lang (oracle 0).1 := rfl
  rw [genLoop_succ]
  dsimp only
  by_cases hc1 : ((evalAttempt mode lang (oracle 1).1).okSchema &&
      (evalAttempt mode lang (oracle 1).1).okLang) = true
  · rw [hc1]
    simp only [if_pos]
    refine ⟨rfl, ?_, ?_⟩
    · simp [hmsgs2, attemptReason]
    · intro hfail1
      exfalso
      have : ((evalAttempt mode lang (oracle 1).1).okSchema &&
          (evalAttempt mode lang (oracle 1).1).okLang) = false := by
        revert hfail1
        unfold attemptFails
        cases ((evalAttempt mode lang (oracle 1).1).okSchema &&
          (evalAttempt mode lang (oracle 1).1).okLang) <;> simp
      rw [hc1] at this
      cases this
  · simp only [Bool.not_eq_true] at hc1
    rw [hc1]
    simp only [Bool.false_eq_true, if_false]
    rw [genLoop_zero]
    refine ⟨rfl, ?_, ?_⟩
    · simp [hmsgs2, attemptReason]
    · intro _
      rfl

/-- **C4.**  For every known mode, `generate_mode_output_validated` makes
at most `max_retries + 1` chat-completion calls; with the default
`max_retries = 1`, a first attempt failing parsing, schema validation or
language validation triggers exactly one retry whose message list is the
original prompt plus the prior assistant output and a corrective user
message; and when every attempt fails the loop returns normally with the
fallback object carrying the mode tag, the last raw model text, and a
non-empty failure reason. -/
theorem C4_generation_loop (mode : String) (title : Option String)
    (source_text : String) (links : PyVal) (language : String)
    (oracle : Nat → String × String) (env_model : String)
    (hm : mode = "easy_read" ∨ mode = "checklist" ∨ mode = "step_by_step") :
    ∃ msgs0, prompt_for_mode mode title source_text links language =
        Except.ok msgs0 ∧
      (∀ max_retries, ∃ r, generate_mode_output_validated mode title
          source_text links language max_retries oracle env_model =
          Except.ok r ∧ r.calls ≤ max_retries + 1) ∧
      (attemptFails mode language (oracle 0).1 = true →
        ∃ r, generate_mode_output_validated mode title source_text links
            language 1 oracle env_model = Except.ok r ∧
          r.calls = 2 ∧
          r.trace.map Prod.fst = [msgs0, msgs0 ++
            [("assistant", (oracle 0).1),
             ("user", corrective_message
               (attemptReason mode language (oracle 0).1) language)]] ∧
          (attemptFails mode language (oracle 1).1 = true →
            r.output = pydict [("mode", pystr mode),
              ("raw", pystr (oracle 1).1),
              ("error", pystr (attemptReason mode language (oracle 1).1))] ∧
            attemptReason mode language (oracle 1).1 ≠ "")) := by
  have main : ∀ msgs0, prompt_for_mode mode title source_text links language
      = Except.ok msgs0 →
      (∀ max_retries, ∃ r, generate_mode_output_validated mode title
          source_text links language max_retries oracle env_model =
          Except.ok r ∧ r.calls ≤ max_retries + 1) ∧
      (attemptFails mode language (oracle 0).1 = true →
        ∃ r, generate_mode_output_validated mode title source_text links
            language 1 oracle env_model = Except.ok r ∧
          r.calls = 2 ∧
          r.trace.map Prod.fst = [msgs0, msgs0 ++
            [("assistant", (oracle 0).1),
             ("user", corrective_message
               (attemptReason mode language (oracle 0).1) language)]] ∧
          (attemptFails mode language (oracle 1).1 = true →
            r.output = pydict [("mode", pystr mode),
              ("raw", pystr (oracle 1).1),
              ("error", pystr (attemptReason mode language (oracle 1).1))] ∧
            attemptReason mode language (oracle 1).1 ≠ "")) := by
    intro msgs0 hp
    constructor
    · intro max_retries
      refine ⟨genLoop mode language oracle env_model 0 (max_retries + 1)
        msgs0 "" "" [], ?_, ?_⟩
      · simp [generate_mode_output_validated, hp]
      · rw [genLoop_calls_eq]
        have := genLoop_trace_le mode language oracle env_model
          (max_retries + 1) 0 msgs0 "" "" []
        simpa using this
    · intro hfail0
      obtain ⟨hcalls, htrace, hout⟩ :=
        genLoop_two_attempts mode language oracle env_model msgs0 hfail0
      refine ⟨genLoop mode language oracle env_model 0 2 msgs0 "" "" [],
        ?_, hcalls, htrace, ?_⟩
      · simp [generate_mode_output_validated, hp]
      · intro hfail1
        exact ⟨hout hfail1, reason_ne_empty _ _⟩
  rcases hm with rfl | rfl | rfl
  · exact ⟨_, rfl, main _ rfl⟩
  · exact ⟨_, rfl, main _ rfl⟩
  · exact ⟨_, rfl, main _ rfl⟩

/-- **C4, witness.** -/
theorem C4_generation_loop_witness :
    ∃ msgs0, prompt_for_mode "easy_read" Option.none "src" (pylist []) "en" =
        Except.ok msgs0 ∧
      (∀ max_retries, ∃ r, generate_mode_output_validated "easy_read"
          Option.none "src" (pylist []) "en" max_retries
          (fun _ => ("nope", "m")) "gpt" = Except.ok r ∧
          r.calls ≤ max_retries + 1) ∧
      (attemptFails "easy_read" "en"
          ((fun (_ : Nat) => ("nope", "m")) 0).1 = true →
        ∃ r, generate_mode_output_validated "easy_read" Option.none "src"
            (pylist []) "en" 1 (fun _ => ("nope", "m")) "gpt" =
            Except.ok r ∧
          r.calls = 2 ∧
          r.trace.map Prod.fst = [msgs0, msgs0 ++
            [("assistant", ((fun (_ : Nat) => ("nope", "m")) 0).1),
             ("user", corrective_message
               (attemptReason "easy_read" "en"
                 ((fun (_ : Nat) => ("nope", "m")) 0).1) "en")]] ∧
          (attemptFails "easy_read" "en"
              ((fun (_ : Nat) => ("nope", "m")) 1).1 = true →
            r.output = pydict [("mode", pystr "easy_read"),
              ("raw", pystr ((fun (_ : Nat) => ("nope", "m")) 1).1),
              ("error", pystr (attemptReason "easy_read" "en"
                ((fun (_ : Nat) => ("nope", "m")) 1).1))] ∧
            attemptReason "easy_read" "en"
              ((fun (_ : Nat) => ("nope", "m")) 1).1 ≠ "")) :=
  C4_generation_loop "easy_read" Option.none "src" (pylist []) "en"
    (fun _ => ("nope", "m")) "gpt" (Or.inl rfl)

theorem storeSet_lookup_self (store : Store) (sid : String) (doc : PyVal)
    (hmiss : store.lookup sid = Option.none) :
    (storeSet store sid doc).lookup sid = some doc := by
  induction store with
  | nil => simp [storeSet, List.lookup]
  | cons e rest ih =>
    obtain ⟨k, v⟩ := e
    by_cases hk : k = sid
    · subst hk
      simp [List.lookup] at hmiss
    · have hb : (sid == k) = false :=
        beq_eq_false_iff_ne.mpr (fun hc => hk hc.symm)

      simp only [List.lookup, hb] at hmiss
      simp [storeSet, hk, List.lookup, hb, ih hmiss]

theorem truthy_of_hasKey (d : PyVal) (k : String) (h : d.hasKey k = true) :
    d.truthy = true := by
  cases d with
  | pydict es =>
    cases es with
    | nil => simp [hasKey, PyVal.get, List.lookup] at h
    | cons e rest => simp [truthy]
  | pynone => simp [hasKey, PyVal.get] at h
  | pybool b => simp [hasKey, PyVal.get] at h
  | pyint n => simp [hasKey, PyVal.get] at h
  | pyfloat l => simp [hasKey, PyVal.get] at h
  | pystr s => simp [hasKey, PyVal.get] at h
  | pylist xs => simp [hasKey, PyVal.get] at h

theorem validate_by_mode_norm_hasKey_mode (mode : String) (obj : PyVal)
    (hm : mode = "easy_read" ∨ mode = "checklist" ∨ mode = "step_by_step") :
    ((validate_by_mode mode obj).2.2).hasKey "mode" = true := by
  rcases hm with rfl | rfl | rfl
  · exact hasKey_setdefault_self _ _ _ (ensure_dict_isDict obj)
  · exact normalize_checklist_hasKey _ (ensure_dict_isDict obj) "mode"
      (by simp)
  · exact hasKey_setdefault_self _ _ _ (ensure_dict_isDict obj)

theorem genLoop_output_truthy (mode lang : String)
    (oracle : Nat → String × String) (env : String)
    (hm : mode = "easy_read" ∨ mode = "checklist" ∨ mode = "step_by_step") :
    ∀ (n i : Nat) (msgs : List Msg) (lr ls : String)
      (tr : List (List Msg × String)),
    ((genLoop mode lang oracle env i n msgs lr ls tr).output).truthy = true := by
  intro n
  induction n with
  | zero =>
    intro i msgs lr ls tr
    rw [genLoop_zero]
    simp [truthy]
  | succ left ih =>
    intro i msgs lr ls tr
    rw [genLoop_succ]
    dsimp only
    by_cases hc : ((evalAttempt mode lang (oracle i).1).okSchema &&
        (evalAttempt mode lang (oracle i).1).okLang) = true
    · rw [hc]
      simp only [if_pos]
      exact truthy_of_hasKey _ "mode"
        (validate_by_mode_norm_hasKey_mode mode _ hm)
    · simp only [Bool.not_eq_true] at hc
      rw [hc]
      simp only [Bool.false_eq_true, if_false]
      exact ih _ _ _ _ _

theorem simplify_mode_step_miss (page : PageBundle) (title : Option String)
    (ilinks : PyVal) (lang : String) (session : Option String)
    (oracle : Nat → String × String) (env : String) (now : PyVal)
    (acc : SimplifyAcc) (mode : String) (msgs0 : List Msg)
    (hp : prompt_for_mode mode title page.source_text ilinks lang =
      Except.ok msgs0)
    (hget : get_simplification page.url mode lang page.source_text_hash
      acc.store = Option.none) :
    simplify_mode_step page title ilinks lang session false oracle env now
        acc mode =
      (let res := genLoop mode lang (fun k => oracle (acc.llmCalls + k)) env
        0 2 msgs0 "" "" []
       Except.ok
        { outputs := acc.outputs.setKey mode res.output
          simpl_ids := acc.simpl_ids ++
            [(mode, simplification_id_for page.url mode lang
              page.source_text_hash)]
          model_used_any := res.model
          store := storeSet acc.store
            (simplification_id_for page.url mode lang page.source_text_hash)
            (pydict
              [("url", pystr page.url),
               ("page_id", pystr page.page_id),
               ("source_text_hash", pystr page.source_text_hash),
               ("mode", pystr mode),
               ("language", pystr lang),
               ("session_id", optStr session),
               ("llm", pydict [("provider", pystr "openai"),
                 ("model", pystr res.model)]),
               ("output", res.output),
               ("status", pystr "success"),
               ("error", pynone),
               ("updated_at", now)])
          gens := acc.gens + 1
          llmCalls := acc.llmCalls + res.calls }) := by
  have hgen : generate_mode_output_validated mode title page.source_text
      ilinks lang 1 (fun k => oracle (acc.llmCalls + k)) env =
      Except.ok (genLoop mode lang (fun k => oracle (acc.llmCalls + k)) env
        0 2 msgs0 "" "" []) := by
    simp [generate_mode_output_validated, hp]
  simp [simplify_mode_step, hget, hgen, save_simplification]

theorem simplify_mode_step_hit (page : PageBundle) (title : Option String)
    (ilinks : PyVal) (lang : String) (session : Option String)
    (oracle : Nat → String × String) (env : String) (now : PyVal)
    (acc : SimplifyAcc) (mode : String) (cached : PyVal)
    (hget : get_simplification page.url mode lang page.source_text_hash
      acc.store = some cached)
    (hc1 : cached.truthy = true)
    (hc2 : ((cached.get "output").getD pynone).truthy = true) :
    simplify_mode_step page title ilinks lang session false oracle env now
        acc mode =
      Except.ok
        { acc with
          outputs := acc.outputs.setKey mode ((cached.get "output").getD pynone)
          simpl_ids := acc.simpl_ids ++ [(mode, getStrD cached "_id" "")]
          model_used_any :=
            getStrD (if ((cached.get "llm").getD pynone).truthy then
                       (cached.get "llm").getD pynone
                     else pydict []) "model" acc.model_used_any } := by
  simp [simplify_mode_step, hget, hc1, hc2]

theorem simplify_route_single (page : PageBundle) (title : Option String)
    (mode lang : String) (session : Option String) (force : Bool)
    (store : Store) (oracle : Nat → String × String) (env : String)
    (now : PyVal) (hmode : ¬ mode = "all") :
    simplify_route page title mode lang session force store oracle env now =
      (simplify_mode_step page title (pick_important_links page.links) lang
        session force oracle env now
        { outputs := pydict [], simpl_ids := [], model_used_any := env,
          store := store, gens := 0, llmCalls := 0 } mode).map
        (fun acc =>
          { url := page.url
            page_id := page.page_id
            source_text_hash := page.source_text_hash
            language := lang
            model := acc.model_used_any
            outputs := ["easy_read", "checklist", "step_by_step"].foldl
              (fun o m => o.setdefault m pynone) acc.outputs
            simplification_ids := ["easy_read", "checklist",
              "step_by_step"].foldl (fun i m => idsSetdefault i m "")
              acc.simpl_ids
            store := acc.store
            gens := acc.gens
            llmCalls := acc.llmCalls }) := by
  simp only [simplify_route, ne_eq, hmode, not_false_eq_true, if_true]
  cases h : simplify_mode_step page title (pick_important_links page.links)
      lang session force oracle env now
      { outputs := pydict [], simpl_ids := [], model_used_any := env,
        store := store, gens := 0, llmCalls := 0 } mode with
  | error e => simp [List.foldlM, h, Except.map]
  | ok acc => simp [List.foldlM, h, Except.map]

theorem lookup_append_left (l1 l2 : List (String × String)) (k : String)
    (h : (l1.lookup k).isSome = true) :
    ((l1 ++ l2).lookup k) = l1.lookup k := by
  induction l1 with
  | nil => simp [List.lookup] at h
  | cons e rest ih =>
    obtain ⟨a, b⟩ := e
    by_cases hk : (k == a) = true
    · simp [List.lookup, hk]
    · have hk2 : (k == a) = false := by
        cases hka : (k == a)
        · rfl
        · exact absurd hka hk
      simp only [List.lookup, hk2] at h ⊢
      exact ih h

theorem idsSetdefault_lookup_pres (ids : List (String × String))
    (m d k : String) (h : (ids.lookup k).isSome = true) :
    (idsSetdefault ids m d).lookup k = ids.lookup k := by
  unfold idsSetdefault
  by_cases hm : (ids.lookup m).isSome = true
  · simp [hm]
  · have hm2 : (ids.lookup m).isSome = false := by
      cases hma : (ids.lookup m).isSome
      · rfl
      · exact absurd hma hm
    simp only [hm2, Bool.false_eq_true, if_false]
    exact lookup_append_left ids [(m, d)] k h

theorem ui_ids_lookup (ids : List (String × String)) (k : String)
    (h : (ids.lookup k).isSome = true) :
    ((["easy_read", "checklist", "step_by_step"].foldl
      (fun i m => idsSetdefault i m "") ids).lookup k) = ids.lookup k := by
  simp only [List.foldl]
  have h1 := idsSetdefault_lookup_pres ids "easy_read" "" k h
  have h1s : ((idsSetdefault ids "easy_read" "").lookup k).isSome = true := by
    rw [h1]; exact h
  have h2 := idsSetdefault_lookup_pres _ "checklist" "" k h1s
  have h2s : ((idsSetdefault (idsSetdefault ids "easy_read" "") "checklist"
      "").lookup k).isSome = true := by
    rw [h2]; exact h1s
  have h3 := idsSetdefault_lookup_pres _ "step_by_step" "" k h2s
  rw [h3, h2, h1]

theorem get_simplification_storeSet (url mode lang h : String)
    (store : Store) (doc : PyVal)
    (hmiss : store.lookup (simplification_id_for url mode lang h) =
      Option.none) :
    get_simplification url mode lang h
      (storeSet store (simplification_id_for url mode lang h) doc) =
    some ((if doc.truthy then doc else pydict []).setKey "_id"
      (pystr (simplification_id_for url mode lang h))) := by
  simp only [get_simplification]
  rw [storeSet_lookup_self store _ _ hmiss]

/-- The first `/simplify` call of the C2 scenario: a cache miss runs
exactly one generation and writes a document the store will serve back. -/
theorem simplify_route_gen (page : PageBundle) (title : Option String)
    (mode lang : String) (session : Option String) (store0 : Store)
    (oracle : Nat → String × String) (env : String) (now : PyVal)
    (msgs0 : List Msg)
    (hmode : ¬ mode = "all")
    (hm : mode = "easy_read" ∨ mode = "checklist" ∨ mode = "step_by_step")
    (hp : prompt_for_mode mode title page.source_text
      (pick_important_links page.links) lang = Except.ok msgs0)
    (hmiss : store0.lookup (simplification_id_for page.url mode lang
      page.source_text_hash) = Option.none) :
    ∃ o1 cached,
      simplify_route page title mode lang session false store0 oracle env
        now = Except.ok o1 ∧
      o1.gens = 1 ∧
      o1.simplification_ids.lookup mode =
        some (simplification_id_for page.url mode lang
          page.source_text_hash) ∧
      get_simplification page.url mode lang page.source_text_hash o1.store =
        some cached ∧
      cached.truthy = true ∧
      ((cached.get "output").getD pynone).truthy = true ∧
      getStrD cached "_id" "" =
        simplification_id_for page.url mode lang page.source_text_hash := by
  have hget0 : get_simplification page.url mode lang page.source_text_hash
      store0 = Option.none := by
    simp only [get_simplification]
    rw [hmiss]
  have hroute1 := simplify_route_single page title mode lang session false
    store0 oracle env now hmode
  rw [simplify_mode_step_miss page title (pick_important_links page.links)
    lang session oracle env now _ mode msgs0 hp hget0] at hroute1
  simp only [Except.map] at hroute1
  refine ⟨_, _, hroute1, rfl, ?_,
    get_simplification_storeSet page.url mode lang page.source_text_hash
      store0 _ hmiss, ?_, ?_, ?_⟩
  · rw [ui_ids_lookup _ mode (by simp [List.lookup])]
    simp [List.lookup]
  · rfl
  · exact genLoop_output_truthy mode lang (fun k => oracle (0 + k)) env hm
      2 0 msgs0 "" "" []
  · rfl

/-- The second `/simplify` call of the C2 scenario: a cache hit runs zero
generations and returns the stored id. -/
theorem simplify_route_cached (page : PageBundle) (title : Option String)
    (mode lang : String) (session : Option String) (store : Store)
    (oracle : Nat → String × String) (env : String) (now : PyVal)
    (cached : PyVal)
    (hmode : ¬ mode = "all")
    (hget : get_simplification page.url mode lang page.source_text_hash
      store = some cached)
    (hc1 : cached.truthy = true)
    (hc2 : ((cached.get "output").getD pynone).truthy = true) :
    ∃ o2,
      simplify_route page title mode lang session false store oracle env
        now = Except.ok o2 ∧
      o2.gens = 0 ∧
      o2.simplification_ids.lookup mode =
        some (getStrD cached "_id" "") := by
  have hroute2 := simplify_route_single page title mode lang session false
    store oracle env now hmode
  rw [simplify_mode_step_hit page title (pick_important_links page.links)
    lang session oracle env now _ mode cached hget hc1 hc2] at hroute2
  simp only [Except.map] at hroute2
  refine ⟨_, hroute2, rfl, ?_⟩
  rw [ui_ids_lookup _ mode (by simp [List.lookup])]
  simp [List.lookup]

/-- **C2.**  Calling `/simplify` twice for the same URL, mode and language
with `force_regen = false`, the page content (hence `source_text_hash`)
unchanged and the store returning what was saved: the first call runs
exactly one generation and saves its result under the deterministic id;
the second call runs zero generations (one generation across both
requests) and returns the same `simplification_id` as the first. -/
theorem C2_simplify_twice (page : PageBundle) (title : Option String)
    (mode lang : String) (session : Option String) (env_model : String)
    (now1 now2 : PyVal) (oracle : Nat → String × String) (store0 : Store)
    (hm : mode = "easy_read" ∨ mode = "checklist" ∨ mode = "step_by_step")
    (hmiss : store0.lookup (simplification_id_for page.url mode lang
      page.source_text_hash) = Option.none) :
    ∃ o1 o2,
      simplify_route page title mode lang session false store0 oracle
        env_model now1 = Except.ok o1 ∧
      simplify_route page title mode lang session false o1.store oracle
        env_model now2 = Except.ok o2 ∧
      o1.gens = 1 ∧ o2.gens = 0 ∧
      o1.simplification_ids.lookup mode =
        some (simplification_id_for page.url mode lang
          page.source_text_hash) ∧
      o2.simplification_ids.lookup mode =
        o1.simplification_ids.lookup mode := by
  have hmode : ¬ mode = "all" := by
    rcases hm with rfl | rfl | rfl <;> decide
  obtain ⟨msgs0, hp⟩ : ∃ m, prompt_for_mode mode title page.source_text
      (pick_important_links page.links) lang = Except.ok m := by
    rcases hm with rfl | rfl | rfl <;> exact ⟨_, rfl⟩
  obtain ⟨o1, cached, h1, hg1, hid1, hget2, hc1, hc2, hcid⟩ :=
    simplify_route_gen page title mode lang session store0 oracle env_model
      now1 msgs0 hmode hm hp hmiss
  obtain ⟨o2, h2, hg2, hid2⟩ :=
    simplify_route_cached page title mode lang session o1.store oracle
      env_model now2 cached hmode hget2 hc1 hc2
  refine ⟨o1, o2, h1, h2, hg1, hg2, hid1, ?_⟩
  rw [hid2, hcid, hid1]

/-- **C2, witness.** -/
theorem C2_simplify_twice_witness :
    ∃ o1 o2,
      simplify_route
        { page_id := "p"
          url := "u"
          blocks := []
          links := []
          images := []
          source_text := "st"
          source_text_hash := "h" }
        Option.none "checklist" "en" Option.none false []
        (fun _ => ("", "")) "gpt" pynone = Except.ok o1 ∧
      simplify_route
        { page_id := "p"
          url := "u"
          blocks := []
          links := []
          images := []
          source_text := "st"
          source_text_hash := "h" }
        Option.none "checklist" "en" Option.none false o1.store
        (fun _ => ("", "")) "gpt" pynone = Except.ok o2 ∧
      o1.gens = 1 ∧ o2.gens = 0 ∧
      o1.simplification_ids.lookup "checklist" =
        some (simplification_id_for "u" "checklist" "en" "h") ∧
      o2.simplification_ids.lookup "checklist" =
        o1.simplification_ids.lookup "checklist" :=
  C2_simplify_twice
    { page_id := "p"
      url := "u"
      blocks := []
      links := []
      images := []
      source_text := "st"
      source_text_hash := "h" }
    Option.none "checklist" "en" Option.none "gpt" pynone pynone
    (fun _ => ("", "")) [] (Or.inr (Or.inl rfl)) rfl

/-- **C5.**  For resolver outcomes whose addresses all parse (the malformed
case is claim C10), `assert_public_hostname` raises exactly when the
lowercased hostname is in the static denylist, DNS resolution fails or
yields zero addresses, or at least one resolved address is private,
loopback, link-local, reserved, multicast or unspecified; for every
hostname all of whose resolved addresses are public it returns normally. -/
theorem C5_hostname_guard (hostname : String) (resolved : Option (List String))
    (hparse : ∀ ips, resolved = some ips → ∀ s ∈ ips, (ip_address s).isSome = true) :
    (∃ e, assert_public_hostname hostname resolved = Except.error e) ↔
      (asciiLower hostname ∈ BLOCKED_HOSTS ∨ resolved = Option.none ∨
        resolved = some [] ∨
        ∃ ips s a, resolved = some ips ∧ s ∈ ips ∧ ip_address s = some a ∧
          (a.is_private || a.is_loopback || a.is_link_local || a.is_reserved ||
           a.is_multicast || a.is_unspecified) = true) := by
  have hpriv_iff : ∀ s : String, (ip_address s).isSome = true →
      (_is_private_ip s = true ↔ ∃ a, ip_address s = some a ∧
        (a.is_private || a.is_loopback || a.is_link_local || a.is_reserved ||
         a.is_multicast || a.is_unspecified) = true) := by
    intro s hs
    cases ha : ip_address s with
    | none => rw [ha] at hs; simp at hs
    | some a => simp [_is_private_ip, ha]
  by_cases hb : asciiLower hostname ∈ BLOCKED_HOSTS
  · constructor
    · intro _
      exact Or.inl hb
    · intro _
      exact ⟨"URL hostname is not allowed", by simp [assert_public_hostname, hb]⟩
  · cases resolved with
    | none =>
      constructor
      · intro _
        exact Or.inr (Or.inl rfl)
      · intro _
        exact ⟨"DNS lookup failed", by simp [assert_public_hostname, hb]⟩
    | some ips =>
      by_cases hemp : ips = []
      · subst hemp
        constructor
        · intro _
          exact Or.inr (Or.inr (Or.inl rfl))
        · intro _
          exact ⟨"DNS lookup failed", by simp [assert_public_hostname, hb]⟩
      · have hp := hparse ips rfl
        constructor
        · intro ⟨e, he⟩
          simp only [assert_public_hostname, hb, Bool.false_eq_true] at he
          rw [if_neg (by simpa using hb)] at he
          rw [if_neg (by simpa using hemp)] at he
          by_cases hany : ips.any _is_private_ip = true
          · obtain ⟨s, hs, hpv⟩ := List.any_eq_true.mp hany
            obtain ⟨a, ha, hattr⟩ := (hpriv_iff s (hp s hs)).mp hpv
            exact Or.inr (Or.inr (Or.inr ⟨ips, s, a, rfl, hs, ha, hattr⟩))
          · rw [if_neg (by simpa using hany)] at he
            cases he
        · intro h
          rcases h with hb2 | hnone | hsome | ⟨ips2, s, a, hres, hs, ha, hattr⟩
          · exact absurd hb2 hb
          · cases hnone
          · rw [Option.some_inj] at hsome
            exact absurd hsome hemp
          · rw [Option.some_inj] at hres
            subst hres
            have hpv : _is_private_ip s = true :=
              (hpriv_iff s (hp s hs)).mpr ⟨a, ha, hattr⟩
            have hany : ips.any _is_private_ip = true :=
              List.any_eq_true.mpr ⟨s, hs, hpv⟩
            refine ⟨"URL resolves to a private/blocked IP", ?_⟩
            simp only [assert_public_hostname]
            rw [if_neg (by simpa using hb), if_neg (by simpa using hemp)]
            rw [if_pos (by simpa using hany)]

/-- **C5, witness.** -/
theorem C5_hostname_guard_witness :
    (∃ e, assert_public_hostname "example.com" (some ["93.184.216.34"]) =
      Except.error e) ↔
      (asciiLower "example.com" ∈ BLOCKED_HOSTS ∨
        (some ["93.184.216.34"] : Option (List String)) = Option.none ∨
        (some ["93.184.216.34"] : Option (List String)) = some [] ∨
        ∃ ips s a, (some ["93.184.216.34"] : Option (List String)) = some ips ∧
          s ∈ ips ∧ ip_address s = some a ∧
          (a.is_private || a.is_loopback || a.is_link_local || a.is_reserved ||
           a.is_multicast || a.is_unspecified) = true) :=
  C5_hostname_guard "example.com" (some ["93.184.216.34"])
    (by
      intro ips h s hs
      rw [Option.some_inj] at h
      subst h
      simp at hs
      subst hs
      decide)

/-- **C10.**  The `ValueError` branch of `_is_private_ip` treats every
string that does not parse as an IP address as blocked, so the hostname
guard fails closed: a malformed resolved address always makes
`assert_public_hostname` raise, never accept. -/
theorem C10_fail_closed :
    (∀ s : String, ip_address s = Option.none → _is_private_ip s = true) ∧
    (∀ (hostname : String) (ips : List String) (s : String), s ∈ ips →
      ip_address s = Option.none →
      ∃ e, assert_public_hostname hostname (some ips) = Except.error e) := by
  constructor
  · intro s h
    simp [_is_private_ip, h]
  · intro hostname ips s hmem hparse
    have hpriv : _is_private_ip s = true := by simp [_is_private_ip, hparse]
    have hex : ∃ x ∈ ips, _is_private_ip x = true := ⟨s, hmem, hpriv⟩
    by_cases hb : asciiLower hostname ∈ BLOCKED_HOSTS
    · exact ⟨"URL hostname is not allowed", by simp [assert_public_hostname, hb]⟩
    · refine ⟨"URL resolves to a private/blocked IP", ?_⟩
      have hne : ¬ ips = [] := by
        intro hc
        subst hc
        cases hmem
      simp [assert_public_hostname, hb, hne, hex]

theorem indexOf_app_cons {α : Type} [BEq α] [LawfulBEq α] (c : α)
    (l1 l2 : List α) (h : c ∉ l1) :
    (l1 ++ c :: l2).indexOf? c = some l1.length := by
  induction l1 with
  | nil => simp [List.indexOf?, List.findIdx?_cons]
  | cons x xs ih =>
    have hx : ¬ x = c := fun hc => h (by simp [hc])
    have hx2 : (x == c) = false := beq_eq_false_iff_ne.mpr hx
    have ih2 := ih (fun hm => h (List.mem_cons_of_mem _ hm))
    simp only [List.cons_append, List.indexOf?, List.findIdx?_cons, hx2,
      Bool.false_eq_true, if_false] at ih2 ⊢
    simp [List.indexOf?] at ih2
    simp [ih2]

/-- The recovery span of `parse_json_loose` on a text whose first `{`
precedes its last `}`: everything between them, inclusive. -/
theorem firstToLastBrace_concat (pre mid post : String)
    (hpre : '\x7b' ∉ pre.data) (hpost : '\x7d' ∉ post.data) :
    firstToLastBrace (pre ++ "\x7b" ++ mid ++ "\x7d" ++ post) =
      some ("\x7b" ++ mid ++ "\x7d") := by
  have hdata : (pre ++ "\x7b" ++ mid ++ "\x7d" ++ post).data =
      pre.data ++ '\x7b' :: (mid.data ++ '\x7d' :: post.data) := by
    simp [String.data_append]
  have hrev : (pre.data ++ '\x7b' :: (mid.data ++ '\x7d' :: post.data)).reverse
      = post.data.reverse ++ '\x7d' ::
        (mid.data.reverse ++ '\x7b' :: pre.data.reverse) := by
    simp
  have hi : (pre.data ++ '\x7b' ::
      (mid.data ++ '\x7d' :: post.data)).indexOf? '\x7b' =
      some pre.data.length :=
    indexOf_app_cons _ _ _ hpre
  have hj : (post.data.reverse ++ '\x7d' ::
      (mid.data.reverse ++ '\x7b' :: pre.data.reverse)).indexOf? '\x7d' =
      some post.data.reverse.length :=
    indexOf_app_cons _ _ _ (by simpa using hpost)
  unfold firstToLastBrace
  rw [hdata]
  dsimp only
  rw [hi, hrev, hj]
  dsimp only
  have hlen : (pre.data ++ '\x7b' :: (mid.data ++ '\x7d' :: post.data)).length
      - 1 - post.data.reverse.length = pre.data.length + mid.data.length + 1 := by
    simp [List.length_append]
    omega
  rw [hlen]
  rw [if_pos (by omega)]
  congr 1
  have hdrop : (pre.data ++ '\x7b' ::
      (mid.data ++ '\x7d' :: post.data)).drop pre.data.length =
      '\x7b' :: (mid.data ++ '\x7d' :: post.data) := by
    simp
  have harith : pre.data.length + mid.data.length + 1 - pre.data.length + 1 =
      mid.data.length + 2 := by omega
  rw [hdrop, harith]
  have htake : ('\x7b' :: (mid.data ++ '\x7d' :: post.data)).take
      (mid.data.length + 2) = '\x7b' :: (mid.data ++ ['\x7d']) := by
    rw [show mid.data.length + 2 = (mid.data.length + 1) + 1 by omega]
    rw [List.take_cons]
    congr 1
    rw [show mid.data.length + 1 + 1 - 1 = mid.data.length + 1 by omega]
    rw [List.take_append]
    simp
    omega
  rw [htake]
  apply String.ext
  simp [String.data_append]

theorem extractLinksGo_eq (base : String) (maxL : Nat) :
    ∀ (anchors : List AnchorTag) (acc : List LinkItem),
    acc.length < maxL →
    extractLinksGo base maxL anchors acc =
      (acc ++ anchors.filterMap (linkOf base)).take maxL := by
  intro anchors
  induction anchors with
  | nil =>
    intro acc hacc
    simp [extractLinksGo, List.take_of_length_le (Nat.le_of_lt hacc)]
  | cons a rest ih =>
    intro acc hacc
    cases ha : a.href with
    | none => simp [extractLinksGo, ha, linkOf, ih acc hacc]
    | some href =>
      by_cases hemp : href.isEmpty
      · simp [extractLinksGo, ha, hemp, linkOf, ih acc hacc]
      · by_cases hdrop : (pyStartsWith (urljoin base href) "mailto:" ||
            pyStartsWith (urljoin base href) "tel:" ||
            pyStartsWith (urljoin base href) "javascript:" ||
            pyStartsWith (urljoin base href) "#") = true
        · simp [extractLinksGo, ha, hemp, hdrop, linkOf, ih acc hacc]
        · simp only [Bool.not_eq_true] at hdrop
          by_cases hfull : (acc ++ [(⟨urljoin base href, _clean_text a.text,
              _is_internal_link base (urljoin base href)⟩ : LinkItem)]).length
              ≥ maxL
          · have hlen : maxL = acc.length + 1 := by
              simp only [List.length_append, List.length_cons,
                List.length_nil] at hfull
              omega
            simp only [extractLinksGo, ha, hemp, Bool.false_eq_true, if_false,
              hdrop, ge_iff_le]
            rw [if_pos (by simpa using hfull)]
            simp only [List.filterMap_cons]
            rw [show linkOf base a = some ⟨urljoin base href,
              _clean_text a.text, _is_internal_link base (urljoin base href)⟩
              from by simp [linkOf, ha, hemp, hdrop]]
            rw [show acc ++ (⟨urljoin base href, _clean_text a.text,
              _is_internal_link base (urljoin base href)⟩ : LinkItem) ::
              rest.filterMap (linkOf base) =
              (acc ++ [⟨urljoin base href, _clean_text a.text,
                _is_internal_link base (urljoin base href)⟩]) ++
              rest.filterMap (linkOf base) from by simp]
            rw [show maxL = (acc ++ [(⟨urljoin base href, _clean_text a.text,
              _is_internal_link base (urljoin base href)⟩ : LinkItem)]).length
              from by simp [hlen]]
            rw [List.take_left]
          · have hlt : (acc ++ [(⟨urljoin base href, _clean_text a.text,
                _is_internal_link base (urljoin base href)⟩ :
                LinkItem)]).length < maxL := by omega
            simp only [extractLinksGo, ha, hemp, Bool.false_eq_true, if_false,
              hdrop, ge_iff_le]
            rw [if_neg (by simpa using hfull)]
            rw [ih _ hlt]
            congr 1
            simp only [List.filterMap_cons]
            rw [show linkOf base a = some ⟨urljoin base href,
              _clean_text a.text, _is_internal_link base (urljoin base href)⟩
              from by simp [linkOf, ha, hemp, hdrop]]
            simp

theorem extractImagesGo_eq (base : String) (maxI : Nat) :
    ∀ (imgs : List ImgTag) (acc : List ImageItem),
    acc.length < maxI →
    extractImagesGo base maxI imgs acc =
      (acc ++ imgs.filterMap (imageOf base)).take maxI := by
  intro imgs
  induction imgs with
  | nil =>
    intro acc hacc
    simp [extractImagesGo, List.take_of_length_le (Nat.le_of_lt hacc)]
  | cons img rest ih =>
    intro acc hacc
    cases hs : pyOrStr (pyOrStr img.src img.data_src) img.data_lazy_src with
    | none => simp [extractImagesGo, hs, imageOf, ih acc hacc]
    | some s =>
      by_cases hemp : s.isEmpty
      · simp [extractImagesGo, hs, hemp, imageOf, ih acc hacc]
      · by_cases hfull : (acc ++ [(⟨urljoin base s,
            _clean_text (img.alt.getD "")⟩ : ImageItem)]).length ≥ maxI
        · have hlen : maxI = acc.length + 1 := by
            simp only [List.length_append, List.length_cons,
              List.length_nil] at hfull
            omega
          simp only [extractImagesGo, hs, hemp, Bool.false_eq_true, if_false,
            ge_iff_le]
          rw [if_pos (by simpa using hfull)]
          simp only [List.filterMap_cons]
          rw [show imageOf base img = some ⟨urljoin base s,
            _clean_text (img.alt.getD "")⟩ from by simp [imageOf, hs, hemp]]
          rw [show acc ++ (⟨urljoin base s, _clean_text (img.alt.getD "")⟩ :
            ImageItem) :: rest.filterMap (imageOf base) =
            (acc ++ [⟨urljoin base s, _clean_text (img.alt.getD "")⟩]) ++
            rest.filterMap (imageOf base) from by simp]
          rw [show maxI = (acc ++ [(⟨urljoin base s,
            _clean_text (img.alt.getD "")⟩ : ImageItem)]).length
            from by simp [hlen]]
          rw [List.take_left]
        · have hlt : (acc ++ [(⟨urljoin base s,
              _clean_text (img.alt.getD "")⟩ : ImageItem)]).length < maxI :=
            by omega
          simp only [extractImagesGo, hs, hemp, Bool.false_eq_true, if_false,
            ge_iff_le]
          rw [if_neg (by simpa using hfull)]
          rw [ih _ hlt]
          congr 1
          simp only [List.filterMap_cons]
          rw [show imageOf base img = some ⟨urljoin base s,
            _clean_text (img.alt.getD "")⟩ from by simp [imageOf, hs, hemp]]
          simp

/-- **C9, counterexample.**  The claim says fragment-only links are
dropped.  The code resolves the href *before* testing the `#` prefix, and
a fragment-only href resolves to the base URL plus the fragment, which
does not start with `#` — so the link is emitted (and flagged internal),
not dropped. -/
theorem C9_counterexample :
    extract_links_and_images [⟨some "#frag", "Jump"⟩] []
        "http://example.com/page" 600 300 =
      ([⟨"http://example.com/page#frag", "Jump", true⟩], []) ∧
    ([⟨"http://example.com/page#frag", "Jump", true⟩] : List LinkItem) ≠ [] :=
  ⟨rfl, by simp⟩

/-- **C9, amended.**  Link extraction emits, in order and capped at the
configured maxima, exactly the anchors with a non-empty `href` whose
URL *resolved against the base* does not start with `mailto:`, `tel:`,
`javascript:` or `#` (so fragment-only hrefs, which resolve to the base
URL plus a fragment, are kept), each resolved via `urljoin` and flagged
internal; the internal flag is true iff the resolved URL's network
authority is empty or equals the base URL's authority; and images
likewise with their cap. -/
theorem C9_amended :
    (∀ (base : String) (anchors : List AnchorTag) (imgs : List ImgTag)
       (max_links max_images : Nat), 1 ≤ max_links → 1 ≤ max_images →
      extract_links_and_images anchors imgs base max_links max_images =
        ((anchors.filterMap (linkOf base)).take max_links,
         (imgs.filterMap (imageOf base)).take max_images)) ∧
    (∀ base href : String, _is_internal_link base href = true ↔
      ((urlparse href "" true).netloc = "" ∨
       (urlparse href "" true).netloc = (urlparse base "" true).netloc)) ∧
    (∀ (base : String) (anchors : List AnchorTag) (imgs : List ImgTag),
      (extract_links_and_images anchors imgs base 600 300).1.length ≤ 600 ∧
      (extract_links_and_images anchors imgs base 600 300).2.length ≤ 300) := by
  have hmain : ∀ (base : String) (anchors : List AnchorTag)
      (imgs : List ImgTag) (max_links max_images : Nat),
      1 ≤ max_links → 1 ≤ max_images →
      extract_links_and_images anchors imgs base max_links max_images =
        ((anchors.filterMap (linkOf base)).take max_links,
         (imgs.filterMap (imageOf base)).take max_images) := by
    intro base anchors imgs maxL maxI hL hI
    unfold extract_links_and_images
    rw [extractLinksGo_eq base maxL anchors [] (by simpa using hL)]
    rw [extractImagesGo_eq base maxI imgs [] (by simpa using hI)]
    simp
  refine ⟨hmain, ?_, ?_⟩
  · intro base href
    unfold _is_internal_link
    by_cases hne : (urlparse href "" true).netloc.isEmpty
    · have h0 : (urlparse href "" true).netloc = "" :=
        (String.isEmpty_iff _).mp hne
      constructor
      · intro _
        exact Or.inl h0
      · intro _
        simp [hne]
    · have h0 : ¬ (urlparse href "" true).netloc = "" := by
        intro hc
        exact hne ((String.isEmpty_iff _).mpr hc)
      simp [hne, h0]
  · intro base anchors imgs
    rw [hmain base anchors imgs 600 300 (by omega) (by omega)]
    constructor
    · simp
    · simp

/-- **C9, witness.** -/
theorem C9_amended_witness :
    extract_links_and_images [⟨some "x", "T"⟩]
        [⟨some "i.png", Option.none, Option.none, some "alt"⟩]
        "http://example.com/" 600 300 =
      (([(⟨some "x", "T"⟩ : AnchorTag)].filterMap
          (linkOf "http://example.com/")).take 600,
       ([(⟨some "i.png", Option.none, Option.none, some "alt"⟩ :
          ImgTag)].filterMap (imageOf "http://example.com/")).take 300) :=
  C9_amended.1 "http://example.com/" [⟨some "x", "T"⟩]
    [⟨some "i.png", Option.none, Option.none, some "alt"⟩] 600 300
    (by omega) (by omega)

/-- **C7.**  `language_ok` accepts everything for target `en`; for `zh` it
accepts exactly the objects whose flattened string values contain a CJK
character; for `ms` it accepts exactly when the flattened text has at least
2 Malay marker-word hits, or at most 3 common-English hits among at least 8
words (the explicit empty-text rejection of the code is subsumed); and a
Chinese output without CJK fails, one with any CJK passes, while ten common
English words with no Malay marker fail. -/
theorem C7_language_heuristics :
    (∀ obj, language_ok "en" obj = true) ∧
    (∀ obj, language_ok "zh" obj = true ↔
      ∃ c ∈ (flatten_text obj).data, isCJK c = true) ∧
    (∀ obj,
      language_ok "ms" obj = true ↔
        (2 ≤ (msWords obj).countP (fun w => MALAY_HINT_WORDS.contains w) ∨
         ((msWords obj).countP (fun w => COMMON_EN_WORDS.contains w) ≤ 3 ∧
          8 ≤ (msWords obj).length))) ∧
    language_ok "zh" (pystr "你好") = true ∧
    language_ok "zh" (pystr "hello there") = false ∧
    language_ok "ms"
      (pystr "the this that page domain used use for only not") = false := by
  refine ⟨fun obj => rfl, fun obj => ?_, fun obj => ?_, by decide, by decide,
    by decide⟩
  · rw [show language_ok "zh" obj = (flatten_text obj).data.any isCJK from rfl]
    exact List.any_eq_true
  · rw [show language_ok "ms" obj =
      (if (msWords obj).isEmpty then false
       else
        (decide (2 ≤ (msWords obj).countP (fun w => MALAY_HINT_WORDS.contains w)) ||
         (decide ((msWords obj).countP (fun w => COMMON_EN_WORDS.contains w) ≤ 3) &&
          decide (8 ≤ (msWords obj).length)))) from rfl]
    by_cases h : (msWords obj).isEmpty
    · have hnil : msWords obj = [] := List.isEmpty_iff.mp h
      simp [h, hnil]
    · simp [h]

/-- **C8, counterexample.**  The claim says that when strict parsing fails,
`parse_json_loose` parses the first top-level `{...}` span and returns that
object.  On a text holding two top-level objects, the greedy regex
`\{.*\}` spans from the first `{` to the *last* `}`, which is not valid
JSON, so the call raises instead of returning the first object — even
though the first top-level span parses fine. -/
theorem C8_counterexample :
    parse_json_loose "\x7b\"a\": 1\x7d x \x7b\"b\": 2\x7d" =
      Except.error "Expecting value" ∧
    json_loads "\x7b\"a\": 1\x7d" = some (pydict [("a", pyint 1)]) :=
  ⟨rfl, rfl⟩

/-- **C8, amended.**  When strict parsing of the stripped text succeeds the
value is returned; otherwise the recovery span runs from the first `{` of
the text to its *last* `}` (the regex is greedy), and that span is parsed;
and when parsing raises, the generation loop proceeds with an empty object
— recording the reason `Invalid JSON: ...` and continuing into schema
validation of `{}` — instead of propagating the error. -/
theorem C8_amended :
    (∀ (text : String) (v : PyVal), json_loads (pyStrip text) = some v →
      parse_json_loose text = Except.ok v) ∧
    (∀ pre mid post : String, '\x7b' ∉ pre.data → '\x7d' ∉ post.data →
      firstToLastBrace (pre ++ "\x7b" ++ mid ++ "\x7d" ++ post) =
        some ("\x7b" ++ mid ++ "\x7d")) ∧
    (∀ (mode lang raw : String) (e : String),
      parse_json_loose raw = Except.error e →
      (evalAttempt mode lang raw).obj = pydict [] ∧
      (evalAttempt mode lang raw).parseReason = some ("Invalid JSON: " ++ e) ∧
      (evalAttempt mode lang raw).okSchema =
        (validate_by_mode mode (pydict [])).1) := by
  refine ⟨?_, ?_, ?_⟩
  · intro text v h
    simp [parse_json_loose, h]
  · intro pre mid post hpre hpost
    exact firstToLastBrace_concat pre mid post hpre hpost
  · intro mode lang raw e h
    refine ⟨?_, ?_, ?_⟩ <;> simp [evalAttempt, h, ensure_dict, PyVal.isDict]

/-- **C8, witness.** -/
theorem C8_amended_witness :
    parse_json_loose "7" = Except.ok (pyint 7) ∧
    firstToLastBrace ("x " ++ "\x7b" ++ "\"a\": 1" ++ "\x7d" ++ " y") =
      some ("\x7b" ++ "\"a\": 1" ++ "\x7d") ∧
    (evalAttempt "easy_read" "en" "garbage").obj = pydict [] :=
  ⟨C8_amended.1 "7" (pyint 7) (by rfl),
   C8_amended.2.1 "x " "\"a\": 1" " y" (by decide) (by decide),
   (C8_amended.2.2 "easy_read" "en" "garbage" "Model did not return JSON."
     (by rfl)).1⟩

/-- **C10, witness.** -/
theorem C10_fail_closed_witness :
    _is_private_ip "not-an-ip" = true ∧
    ∃ e, assert_public_hostname "example.com" (some ["not-an-ip"]) =
      Except.error e :=
  ⟨C10_fail_closed.1 "not-an-ip" (by decide),
   C10_fail_closed.2 "example.com" ["not-an-ip"] "not-an-ip"
     (by simp) (by decide)⟩

end ClearWeb
